import Mathlib

/-!
Verification development for the LoanAdministration repository.

Dates are modelled as integers counting days since 1970-01-01 (the proleptic
Gregorian calendar), so that Python `datetime` subtraction `(b - a).days`
becomes integer subtraction and `date + timedelta(days=k)` becomes `d + k`.
Monetary amounts and rates (Python floats) are modelled as exact rationals.
Python dicts used as lookup tables become functions into `Option`.
A Python function that can raise becomes `Except String` / `Option` valued.
-/

/-- Conversion of a calendar date (year, month 1..12, day) to its day number
relative to the 1970-01-01 epoch (standard civil-from-days algorithm; `/` and
`%` on `ℤ` are Euclidean, which agrees with Python floor division for the
positive divisors used here). -/
def dateFromYmd (y m d : ℤ) : ℤ :=
  let y' := if m ≤ 2 then y - 1 else y
  let era := y' / 400
  let yoe := y' - era * 400
  let mp := (m + 9) % 12
  let doy := (153 * mp + 2) / 5 + d - 1
  let doe := yoe * 365 + yoe / 4 - yoe / 100 + doy
  era * 146097 + doe - 719468

/-- Inverse conversion: epoch day number to (year, month, day). -/
def ymdFromDate (z : ℤ) : ℤ × ℤ × ℤ :=
  let z' := z + 719468
  let era := z' / 146097
  let doe := z' - era * 146097
  let yoe := (doe - doe / 1460 + doe / 36524 - doe / 146096) / 365
  let y := yoe + era * 400
  let doy := doe - (365 * yoe + yoe / 4 - yoe / 100)
  let mp := (5 * doy + 2) / 153
  let d := doy - (153 * mp + 2) / 5 + 1
  let m := if mp < 10 then mp + 3 else mp - 9
  (if m ≤ 2 then y + 1 else y, m, d)

/-- Year of an epoch-day date (Python `date.year`). -/
def yearOf (z : ℤ) : ℤ := (ymdFromDate z).1

/-- Month of an epoch-day date (Python `date.month`). -/
def monthOf (z : ℤ) : ℤ := (ymdFromDate z).2.1

-- Sanity checks for the calendar model.
example : dateFromYmd 1970 1 1 = 0 := by decide
example : dateFromYmd 1970 1 2 = 1 := by decide
example : dateFromYmd 2025 1 15 - dateFromYmd 2025 1 1 = 14 := by decide
example : dateFromYmd 2025 3 1 - dateFromYmd 2025 2 28 = 1 := by decide
example : dateFromYmd 2024 3 1 - dateFromYmd 2024 2 28 = 2 := by decide
example : ymdFromDate (dateFromYmd 2025 8 31) = (2025, 8, 31) := by decide
example : ymdFromDate (dateFromYmd 1999 12 31) = (1999, 12, 31) := by decide

/-- Python `datetime.weekday()`: Monday = 0, ..., Sunday = 6.
1970-01-01 (epoch day 0) was a Thursday (= 3). -/
def pyWeekday (d : ℤ) : ℤ := (d + 3) % 7

example : pyWeekday (dateFromYmd 2025 8 31) = 6 := by decide
example : pyWeekday (dateFromYmd 2025 1 20) = 0 := by decide

/-- Business-day test from `business_days.py`: `weekday() < 5 and not in holidays`. -/
def isBusinessDay (d : ℤ) (holidays : List ℤ) : Bool :=
  decide (pyWeekday d < 5) && !(decide (d ∈ holidays))

/-!
`add_business_days` and `get_last_business_day_of_month` in `business_days.py`
are `while` loops. They are embedded twice:

* `addBusinessDaysLoop` / `lastBusinessDayLoop` mirror the loops literally,
  with a step-count fuel; returning `none` means the loop has not finished
  within `fuel` iterations. Claim C10 shows some fuel always suffices.
* `add_business_days` / `get_last_business_day_of_month` are the total
  functions used by the rest of the embedding. They precompute a fuel bound
  `seekFuel` large enough to reach a weekday lying beyond every holiday
  (at most 7 days past the extreme holiday), so the bounded search
  `seekBusinessDay` finds the same date the unbounded loop finds; this
  agreement is part of claim C10's theorem.
-/

/-- Literal embedding of the `add_business_days` while loop:
one fuel unit per calendar-day step. -/
def addBusinessDaysLoop (holidays : List ℤ) (step : ℤ) :
    ℕ → ℤ → ℕ → Option ℤ
  | 0, current, remaining => if remaining = 0 then some current else none
  | fuel + 1, current, remaining =>
    if remaining = 0 then some current
    else
      addBusinessDaysLoop holidays step fuel (current + step)
        (if isBusinessDay (current + step) holidays then remaining - 1 else remaining)

/-- Literal embedding of the `get_last_business_day_of_month` while loop. -/
def lastBusinessDayLoop (holidays : List ℤ) : ℕ → ℤ → Option ℤ
  | 0, _ => none
  | fuel + 1, d => if isBusinessDay d holidays then some d else lastBusinessDayLoop holidays fuel (d - 1)

/-- Fuel bound for the bounded business-day searches: enough steps to pass
every holiday plus a full week, in the direction of travel. -/
def seekFuel (holidays : List ℤ) (step c : ℤ) : ℕ :=
  if 0 ≤ step then (holidays.foldl max c + 8 - c).toNat
  else (c + 8 - holidays.foldl min c).toNat

/-- Bounded search for the next business day in direction `step`,
starting strictly after `c` (the loop body `current += step` then test). -/
def seekBusinessDay (holidays : List ℤ) (step : ℤ) : ℕ → ℤ → ℤ
  | 0, c => c
  | fuel + 1, c =>
    if isBusinessDay (c + step) holidays then c + step
    else seekBusinessDay holidays step fuel (c + step)

/-- Iterating the business-day search `n` times: each iteration consumes one
unit of `days_remaining` in the source loop. -/
def addBusinessDaysGo (holidays : List ℤ) (step : ℤ) : ℕ → ℤ → ℤ
  | 0, c => c
  | n + 1, c => addBusinessDaysGo holidays step n
      (seekBusinessDay holidays step (seekFuel holidays step c) c)

/-- Total embedding of `add_business_days(start_date, days, holidays)`:
`step = 1 if days >= 0 else -1`, then consume `abs(days)` business days. -/
def add_business_days (start_date days : ℤ) (holidays : List ℤ) : ℤ :=
  addBusinessDaysGo holidays (if 0 ≤ days then 1 else -1) days.natAbs start_date

/-- Bounded backward search including the starting day itself
(the `while True` loop tests the current day before decrementing). -/
def seekBackIncl (holidays : List ℤ) : ℕ → ℤ → ℤ
  | 0, d => d
  | fuel + 1, d => if isBusinessDay d holidays then d else seekBackIncl holidays fuel (d - 1)

/-- Calendar last day of a month, via `datetime(year(+1), month+1, 1) - timedelta(days=1)`
exactly as written in `get_last_business_day_of_month` and `get_period_end_date`. -/
def endOfMonthDay (year month : ℤ) : ℤ :=
  (if month = 12 then dateFromYmd (year + 1) 1 1 else dateFromYmd year (month + 1) 1) - 1

/-- Total embedding of `get_last_business_day_of_month(year, month, holidays)`. -/
def get_last_business_day_of_month (year month : ℤ) (holidays : List ℤ) : ℤ :=
  seekBackIncl holidays (seekFuel holidays (-1) (endOfMonthDay year month)) (endOfMonthDay year month)

example : get_last_business_day_of_month 2025 1 [] = dateFromYmd 2025 1 31 := by decide
example : get_last_business_day_of_month 2025 8 [] = dateFromYmd 2025 8 29 := by decide
example : add_business_days (dateFromYmd 2025 1 31) 2 [] = dateFromYmd 2025 2 4 := by decide
example : add_business_days (dateFromYmd 2025 2 3) (-2) [] = dateFromYmd 2025 1 30 := by decide

/-- Embedding of `get_nth_weekday(year, month, weekday, n)` from `business_days.py`. -/
def get_nth_weekday (year month weekday n : ℤ) : ℤ :=
  let first_day := dateFromYmd year month 1
  let first_weekday := pyWeekday first_day
  let days_until_weekday := (weekday - first_weekday + 7) % 7
  let first_occurrence := first_day + days_until_weekday
  if 0 < n then first_occurrence + 7 * (n - 1)
  else
    let fifth_occurrence := first_occurrence + 28
    if monthOf fifth_occurrence = month then fifth_occurrence
    else first_occurrence + 21

example : get_nth_weekday 2025 1 0 3 = dateFromYmd 2025 1 20 := by decide
example : get_nth_weekday 2025 5 0 (-1) = dateFromYmd 2025 5 26 := by decide

/-- Embedding of `get_us_bank_holidays(year)`: five fixed-date holidays, five
floating nth-weekday holidays, then the Saturday/Sunday observance shift. -/
def get_us_bank_holidays (year : ℤ) : List ℤ :=
  let holidays : List ℤ :=
    [dateFromYmd year 1 1, dateFromYmd year 6 19, dateFromYmd year 7 4,
     dateFromYmd year 11 11, dateFromYmd year 12 25,
     get_nth_weekday year 1 0 3, get_nth_weekday year 2 0 3,
     get_nth_weekday year 5 0 (-1), get_nth_weekday year 9 0 1,
     get_nth_weekday year 11 3 4]
  holidays.map (fun h =>
    if pyWeekday h = 5 then h - 1
    else if pyWeekday h = 6 then h + 1
    else h)

example : (get_us_bank_holidays 2025).length = 10 := by decide
example : dateFromYmd 2025 1 20 ∈ get_us_bank_holidays 2025 := by decide

/-- Embedding of `get_period_end_date(year, month, holidays, convention)`;
`none` models the `ValueError` for an invalid convention. -/
def get_period_end_date (year month : ℤ) (holidays : List ℤ) (convention : String) :
    Option ℤ :=
  if convention = "last_business_day" then
    some (get_last_business_day_of_month year month holidays)
  else if convention = "calendar_month_end" then
    some (endOfMonthDay year month)
  else none

/-- Interest period record from `loan_periods.py` (`payment_due_date = end_date`,
`days` is the inclusive day count as stored by the generator). -/
structure Period where
  period_number : ℕ
  start_date : ℤ
  end_date : ℤ
  payment_due_date : ℤ
  days : ℤ
deriving DecidableEq, Inhabited, Repr

/-- Middle/last-period loop of `generate_interest_periods`: while
`current_start_date < maturity_date.replace(day=1)` emit a period for the
current month and jump to the first of the next month; afterwards emit the
final period ending at `maturity_date`. One fuel unit per loop iteration;
`none` on fuel exhaustion or invalid convention. -/
def middlePeriodsLoop (holidays : List ℤ) (convention : String)
    (maturity_date maturityMonthFirst : ℤ) :
    ℕ → ℤ → ℕ → Option (List Period)
  | 0, current_start_date, period_number =>
    if current_start_date < maturityMonthFirst then none
    else some [⟨period_number, current_start_date, maturity_date, maturity_date,
               maturity_date - current_start_date + 1⟩]
  | fuel + 1, current_start_date, period_number =>
    if current_start_date < maturityMonthFirst then
      match get_period_end_date (yearOf current_start_date) (monthOf current_start_date)
          holidays convention with
      | none => none
      | some current_end_date =>
        let next_start :=
          if monthOf current_start_date = 12 then
            dateFromYmd (yearOf current_start_date + 1) 1 1
          else dateFromYmd (yearOf current_start_date) (monthOf current_start_date + 1) 1
        match middlePeriodsLoop holidays convention maturity_date maturityMonthFirst
            fuel next_start (period_number + 1) with
        | none => none
        | some rest =>
          some (⟨period_number, current_start_date, current_end_date, current_end_date,
                 current_end_date - current_start_date + 1⟩ :: rest)
    else some [⟨period_number, current_start_date, maturity_date, maturity_date,
               maturity_date - current_start_date + 1⟩]

/-- Fuel sufficient for the month-by-month loop: the number of calendar months
from origination to maturity, plus slack. -/
def monthFuel (origination_date maturity_date : ℤ) : ℕ :=
  (12 * (yearOf maturity_date - yearOf origination_date) +
    (monthOf maturity_date - monthOf origination_date) + 2).toNat

/-- Embedding of `generate_interest_periods` from `loan_periods.py`. The first
period ends at the origination month's period-end date; if origination and
maturity share a (year, month) the single period ends at maturity instead;
otherwise the middle/last loop takes over at `first_period_end + 1`. -/
def generate_interest_periods (origination_date maturity_date : ℤ)
    (holidays : List ℤ) (convention : String) : Option (List Period) :=
  match get_period_end_date (yearOf origination_date) (monthOf origination_date)
      holidays convention with
  | none => none
  | some first_period_end =>
    if yearOf origination_date = yearOf maturity_date ∧
        monthOf origination_date = monthOf maturity_date then
      some [⟨1, origination_date, maturity_date, maturity_date,
             maturity_date - origination_date + 1⟩]
    else
      match middlePeriodsLoop holidays convention maturity_date
          (dateFromYmd (yearOf maturity_date) (monthOf maturity_date) 1)
          (monthFuel origination_date maturity_date)
          (first_period_end + 1) 2 with
      | none => none
      | some rest =>
        some (⟨1, origination_date, first_period_end, first_period_end,
               first_period_end - origination_date + 1⟩ :: rest)

-- Mirror of the repository's own period-generation unit test
-- (Jan 15 2025 to Mar 31 2025, last-business-day convention).
example :
    (generate_interest_periods (dateFromYmd 2025 1 15) (dateFromYmd 2025 3 31)
      (get_us_bank_holidays 2025) "last_business_day").map
        (fun ps => ps.map (fun p => (p.period_number, p.start_date, p.end_date, p.days))) =
    some [(1, dateFromYmd 2025 1 15, dateFromYmd 2025 1 31, 17),
          (2, dateFromYmd 2025 2 1, dateFromYmd 2025 2 28, 28),
          (3, dateFromYmd 2025 3 1, dateFromYmd 2025 3 31, 31)] := by decide

example :
    (generate_interest_periods (dateFromYmd 2025 1 15) (dateFromYmd 2025 1 31)
      (get_us_bank_holidays 2025) "last_business_day").map List.length = some 1 := by decide

/-- Embedding of `calculate_effective_rate` from `interest_calculations.py`:
clamp the SOFR rate to [floor, ceiling], then add the margin. -/
def calculate_effective_rate (sofr_rate margin floor ceiling : ℚ) : ℚ :=
  max floor (min sofr_rate ceiling) + margin

/-- Embedding of `calculate_period_interest` at the `"actual/360"` day-count
convention, the default and the only convention the engine ever passes
(`interest = principal * annual_rate * (days / 360)`). -/
def calculate_period_interest (principal annual_rate : ℚ) (days : ℤ) : ℚ :=
  principal * annual_rate * ((days : ℚ) / 360)

/-- Payment record as loaded by `payments.py` (the fields the engine reads;
`period_number` is only used by the reconciliation pass). -/
structure Payment where
  payment_date : ℤ
  amount : ℚ
  payment_type : String
  period_number : ℕ
deriving DecidableEq, Inhabited, Repr

/-- Segment dict built in step 2 of `calculate_segmented_interest`
(keys `start`, `end`, `principal`). -/
structure Seg where
  seg_start : ℤ
  seg_end : ℤ
  principal : ℚ
deriving DecidableEq, Inhabited, Repr

/-- Segment-detail dict built in step 3 of `calculate_segmented_interest`. -/
structure SegmentDetail where
  segment_num : ℕ
  start_date : ℤ
  end_date : ℤ
  days : ℤ
  principal : ℚ
  interest : ℚ
deriving DecidableEq, Inhabited, Repr

/-- Stable sort by `payment_date`, modelling Python's stable
`list.sort(key=lambda x: x['payment_date'])` as insertion sort. -/
def insertByDate (p : Payment) : List Payment → List Payment
  | [] => [p]
  | q :: rest =>
    if p.payment_date ≤ q.payment_date then p :: q :: rest
    else q :: insertByDate p rest

/-- Stable sort by `payment_date` (see `insertByDate`). -/
def sortByDate : List Payment → List Payment
  | [] => []
  | p :: rest => insertByDate p (sortByDate rest)

/-- Segment construction of `calculate_segmented_interest` step 2, together
with the running principal it threads: started at `(period_start, starting_principal)`,
each event `e` closes the open segment at `e.payment_date` and deducts
`e.amount` afterwards; with no events a single segment spans the period.
Returns the segment list and the final running principal. -/
def buildSegments (period_end : ℤ) : ℤ → ℚ → List Payment → List Seg × ℚ
  | seg_start, principal, [] => ([⟨seg_start, period_end, principal⟩], principal)
  | seg_start, principal, e :: rest =>
    let r := buildSegments period_end (e.payment_date + 1) (principal - e.amount) rest
    (⟨seg_start, e.payment_date, principal⟩ :: r.1, r.2)

/-- Step 3 of `calculate_segmented_interest`: number the segments from
`segment_num = 1` upward and price each one over its inclusive day span. -/
def toDetails (effective_rate : ℚ) : ℕ → List Seg → List SegmentDetail
  | _, [] => []
  | n, s :: rest =>
    ⟨n, s.seg_start, s.seg_end, s.seg_end - s.seg_start + 1, s.principal,
     calculate_period_interest s.principal effective_rate (s.seg_end - s.seg_start + 1)⟩
      :: toDetails effective_rate (n + 1) rest

/-- Embedding of `calculate_segmented_interest(period_start, period_end,
starting_principal, effective_rate, prepayments)`: filter prepayments to the
period (inclusive bounds), sort ascending by date, build segments, price each,
and return `(total_interest, ending_principal, segment_details)`. -/
def calculate_segmented_interest (period_start period_end : ℤ)
    (starting_principal effective_rate : ℚ) (prepayments : List Payment) :
    ℚ × ℚ × List SegmentDetail :=
  let period_prepayments := sortByDate (prepayments.filter
    (fun p => decide (period_start ≤ p.payment_date) && decide (p.payment_date ≤ period_end)))
  let built := buildSegments period_end period_start starting_principal period_prepayments
  let segment_details := toDetails effective_rate 1 built.1
  ((segment_details.map SegmentDetail.interest).sum, built.2, segment_details)

/-- Loan object from `loan.py` after `__init__` has run: the configuration
fields plus the derived `holidays` and `periods`. -/
structure Loan where
  loan_id : String
  borrower : String
  principal : ℚ
  margin : ℚ
  origination_date : ℤ
  maturity_date : ℤ
  sofr_floor : ℚ
  sofr_ceiling : ℚ
  period_end_convention : String
  pik_rate : ℚ
  interest_prepayment : ℚ
  holidays : List ℤ
  periods : List Period
deriving DecidableEq, Inhabited, Repr

/-- Embedding of `Loan._get_relevant_holidays`: holidays of every year from
origination year to maturity year inclusive (empty when the range is empty,
as with Python `range`). -/
def get_relevant_holidays (origination_date maturity_date : ℤ) : List ℤ :=
  (List.range (yearOf maturity_date - yearOf origination_date + 1).toNat).flatMap
    (fun i => get_us_bank_holidays (yearOf origination_date + i))

/-- Embedding of `Loan.__init__`: stores the configuration verbatim (performing
no validation), computes the holiday list, and generates the interest periods.
`none` only when period generation itself fails (invalid convention). -/
def loanInit (loan_id borrower : String) (principal margin : ℚ)
    (origination_date maturity_date : ℤ) (sofr_floor sofr_ceiling : ℚ)
    (period_end_convention : String) (pik_rate interest_prepayment : ℚ) :
    Option Loan :=
  let holidays := get_relevant_holidays origination_date maturity_date
  (generate_interest_periods origination_date maturity_date holidays
      period_end_convention).map
    (fun periods =>
      ⟨loan_id, borrower, principal, margin, origination_date, maturity_date,
       sofr_floor, sofr_ceiling, period_end_convention, pik_rate,
       interest_prepayment, holidays, periods⟩)

/-- Embedding of `Loan.get_required_sofr_dates`: the reset date of each period,
2 business days before its start. -/
def Loan.get_required_sofr_dates (l : Loan) : List ℤ :=
  l.periods.map (fun period => add_business_days period.start_date (-2) l.holidays)

/-- Schedule entry dict emitted by `Loan.calculate_schedule` for one period
(the spread period fields plus the engine's computed fields; the optional
payment-status annotation pass, which only adds further keys, is omitted). -/
structure ScheduleEntry where
  period_number : ℕ
  start_date : ℤ
  end_date : ℤ
  payment_due_date : ℤ
  days : ℤ
  principal_beginning : ℚ
  sofr_reset_date : ℤ
  sofr_rate : ℚ
  effective_rate : ℚ
  interest_owed : ℚ
  prepaid_balance_start : ℚ
  prepaid_applied : ℚ
  prepaid_balance_end : ℚ
  pik_elected : Bool
  pik_rate : ℚ
  pik_amount : ℚ
  cash_due : ℚ
  principal_ending : ℚ
  segments : List SegmentDetail
  prepayments : List Payment
deriving DecidableEq, Inhabited, Repr

/-- Prepayment events dated inside the period, inclusive of both bounds
(the comprehension at `loan.py` line 176, repeated inside
`calculate_segmented_interest`). -/
def periodPrepaymentsOf (prepayments : List Payment) (period : Period) : List Payment :=
  prepayments.filter
    (fun p => decide (period.start_date ≤ p.payment_date) &&
              decide (p.payment_date ≤ period.end_date))

/-- Interest accrual branch of the loop body (`loan.py` lines 179-196):
segmented calculation when the period holds prepayments, otherwise the plain
period interest with an unchanged principal and an empty segment list. Returns
`(interest_owed, principal_after_prepayment, segments)`. -/
def interestAccrualOf (current_principal effective_rate : ℚ)
    (prepayments : List Payment) (period : Period) : ℚ × ℚ × List SegmentDetail :=
  if (periodPrepaymentsOf prepayments period).isEmpty then
    (calculate_period_interest current_principal effective_rate period.days,
     current_principal, ([] : List SegmentDetail))
  else
    calculate_segmented_interest period.start_date period.end_date
      current_principal effective_rate prepayments

/-- Prepaid-interest application (`loan.py` lines 201-206): draw
`min(balance, interest_owed)` when a positive balance exists. -/
def prepaidAppliedOf (current_prepaid_balance interest_owed : ℚ) : ℚ :=
  if 0 < current_prepaid_balance then min current_prepaid_balance interest_owed
  else 0

/-- Prepaid balance carried out of the period (`loan.py` lines 201-206). -/
def prepaidEndOf (current_prepaid_balance interest_owed : ℚ) : ℚ :=
  if 0 < current_prepaid_balance then
    current_prepaid_balance - min current_prepaid_balance interest_owed
  else 0

/-- Effective PIK election (`loan.py` line 211): the table election (absent
defaults to False) and a zero prepaid balance at period start. -/
def pikElectedOf (pik_elections : ℕ → Option Bool) (period_number : ℕ)
    (prepaid_balance_start : ℚ) : Bool :=
  (pik_elections period_number).getD false && decide (prepaid_balance_start = 0)

/-- PIK amount (`loan.py` lines 213-231): when elected, principal-based PIK
interest capped at the interest owed; otherwise zero. -/
def pikAmountOf (pik_elected : Bool) (principal_after_prepayment pik_rate : ℚ)
    (days : ℤ) (interest_owed : ℚ) : ℚ :=
  if pik_elected then
    let pa := calculate_period_interest principal_after_prepayment pik_rate days
    if interest_owed < pa then interest_owed else pa
  else 0

/-- Ending principal (`loan.py` lines 228-232): capitalize the PIK amount when
elected. -/
def principalEndingOf (pik_elected : Bool) (principal_after_prepayment pik_amount : ℚ) : ℚ :=
  if pik_elected then principal_after_prepayment + pik_amount
  else principal_after_prepayment

/-- Schedule entry built by the loop body of `Loan.calculate_schedule` for one
period (`loan.py` lines 149-258), once the SOFR rate for the period's reset
date has been resolved: the spread period fields plus every computed field,
each given by the named helper mirroring the corresponding source lines. -/
def stepEntryOf (l : Loan) (sofr_rate : ℚ) (pik_elections : ℕ → Option Bool)
    (prepayments : List Payment) (current_principal current_prepaid_balance : ℚ)
    (period : Period) : ScheduleEntry :=
  let effective_rate :=
    calculate_effective_rate sofr_rate l.margin l.sofr_floor l.sofr_ceiling
  let acc := interestAccrualOf current_principal effective_rate prepayments period
  let interest_owed := acc.1
  let principal_after_prepayment := acc.2.1
  let segments := acc.2.2
  let prepaid_applied := prepaidAppliedOf current_prepaid_balance interest_owed
  let prepaid_balance_end := prepaidEndOf current_prepaid_balance interest_owed
  let pik_elected := pikElectedOf pik_elections period.period_number current_prepaid_balance
  let pik_amount :=
    pikAmountOf pik_elected principal_after_prepayment l.pik_rate period.days interest_owed
  let principal_ending := principalEndingOf pik_elected principal_after_prepayment pik_amount
  let cash_due := interest_owed - prepaid_applied - pik_amount
  ⟨period.period_number, period.start_date, period.end_date,
   period.payment_due_date, period.days, current_principal,
   add_business_days period.start_date (-2) l.holidays, sofr_rate,
   effective_rate, interest_owed, current_prepaid_balance, prepaid_applied,
   prepaid_balance_end, pik_elected, l.pik_rate, pik_amount, cash_due,
   principal_ending, segments, periodPrepaymentsOf prepayments period⟩

/-- Loop body of `Loan.calculate_schedule` for one period, given the running
`(current_principal, current_prepaid_balance)` state. Returns the schedule
entry and the updated state; the `ValueError` raised for a missing SOFR rate
becomes `Except.error`. -/
def scheduleStep (l : Loan) (sofr_rates : ℤ → Option ℚ)
    (pik_elections : ℕ → Option Bool) (prepayments : List Payment)
    (current_principal current_prepaid_balance : ℚ) (period : Period) :
    Except String (ScheduleEntry × ℚ × ℚ) :=
  match sofr_rates (add_business_days period.start_date (-2) l.holidays) with
  | none => .error "SOFR rate not provided for reset date"
  | some sofr_rate =>
    let entry := stepEntryOf l sofr_rate pik_elections prepayments
      current_principal current_prepaid_balance period
    .ok (entry, entry.principal_ending, entry.prepaid_balance_end)

/-- Left-to-right fold of `scheduleStep` over the period list, threading the
`(current_principal, current_prepaid_balance)` state; a raised error aborts
the whole computation with no partial schedule. -/
def scheduleGo (l : Loan) (sofr_rates : ℤ → Option ℚ)
    (pik_elections : ℕ → Option Bool) (prepayments : List Payment) :
    List Period → ℚ → ℚ → Except String (List ScheduleEntry)
  | [], _, _ => .ok []
  | period :: rest, current_principal, current_prepaid_balance =>
    match scheduleStep l sofr_rates pik_elections prepayments
        current_principal current_prepaid_balance period with
    | .error e => .error e
    | .ok (entry, principal_ending, prepaid_balance_end) =>
      match scheduleGo l sofr_rates pik_elections prepayments rest
          principal_ending prepaid_balance_end with
      | .error e => .error e
      | .ok tail => .ok (entry :: tail)

/-- Embedding of `Loan.calculate_schedule` with rates, elections and payments
supplied (the branches that load them from CSV files are out of scope): filter
payments to principal prepayments, override the elections with all-False when
`pik_rate <= 0` (not a PIK loan), and fold over the periods starting from
`(principal, interest_prepayment)`. -/
def Loan.calculate_schedule (l : Loan) (sofr_rates : ℤ → Option ℚ)
    (pik_elections : ℕ → Option Bool) (payments : List Payment) :
    Except String (List ScheduleEntry) :=
  let prepayments := payments.filter (fun p => p.payment_type == "principal_prepayment")
  let effective_elections :=
    if 0 < l.pik_rate then pik_elections
    else fun n => if (l.periods.map Period.period_number).contains n then some false else none
  scheduleGo l sofr_rates effective_elections prepayments l.periods
    l.principal l.interest_prepayment

/-- Chaining predicate for schedules: each entry opens at the running state the
previous entry closed with. -/
def ChainedFrom : ℚ → ℚ → List ScheduleEntry → Prop
  | _, _, [] => True
  | c, b, e :: rest =>
    e.principal_beginning = c ∧ e.prepaid_balance_start = b ∧
      ChainedFrom e.principal_ending e.prepaid_balance_end rest

-- Demonstration fixtures used to instantiate the hypothesis-bearing theorems
-- at concrete inputs.

/-- Concrete 30-day period starting on a Monday (epoch day 11). -/
def demoPeriod1 : Period := ⟨1, 11, 40, 40, 30⟩

/-- Concrete 30-day period adjacent to `demoPeriod1`. -/
def demoPeriod2 : Period := ⟨2, 41, 70, 70, 30⟩

/-- Concrete PIK loan over `demoPeriod1`, `demoPeriod2` with no holidays. -/
def demoLoan : Loan :=
  ⟨"L-001", "Borrower", 1000000, 1/20, 0, 100, 0, 1, "last_business_day",
   1/50, 0, [], [demoPeriod1, demoPeriod2]⟩

/-- Rate table holding 4.5% for every reset date. -/
def demoRates : ℤ → Option ℚ := fun _ => some (9/200)

/-- Election table electing PIK in every period. -/
def demoElectTrue : ℕ → Option Bool := fun _ => some true

/-- Empty election table. -/
def demoElectNone : ℕ → Option Bool := fun _ => none

/-- Variant of `demoLoan` with a pre-funded interest balance (PIK-blocking). -/
def demoLoanPrepaid : Loan :=
  { demoLoan with interest_prepayment := 20000, pik_rate := 3/100 }

/-- Variant of `demoLoan` with a negative margin and no PIK. -/
def demoLoanNegMargin : Loan :=
  { demoLoan with margin := -(1/20), pik_rate := 0 }

/-- Concrete mid-period principal prepayment (epoch day 25 lies in `demoPeriod1`). -/
def demoPrepayment : Payment := ⟨25, 100000, "principal_prepayment", 0⟩

/-- Schedule of `demoLoan` with PIK elected everywhere (extracted list). -/
def demoSchedule : List ScheduleEntry :=
  (demoLoan.calculate_schedule demoRates demoElectTrue []).toOption.getD []

/-- Schedule of `demoLoanPrepaid` with PIK elected everywhere. -/
def demoSchedulePrepaid : List ScheduleEntry :=
  (demoLoanPrepaid.calculate_schedule demoRates demoElectTrue []).toOption.getD []

/-- Schedule of `demoLoanNegMargin` with no elections. -/
def demoScheduleNegMargin : List ScheduleEntry :=
  (demoLoanNegMargin.calculate_schedule demoRates demoElectNone []).toOption.getD []

/-- Schedule of `demoLoan` with a mid-period principal prepayment. -/
def demoScheduleSegmented : List ScheduleEntry :=
  (demoLoan.calculate_schedule demoRates demoElectNone [demoPrepayment]).toOption.getD []

/-! Helper lemmas about folded maxima/minima, used to bound the business-day
searches. -/

theorem le_foldl_max (hs : List ℤ) (c : ℤ) : c ≤ hs.foldl max c := by
  induction hs generalizing c with
  | nil => exact le_refl c
  | cons h t ih => exact le_trans (le_max_left c h) (ih (max c h))

theorem mem_le_foldl_max (hs : List ℤ) (c : ℤ) : ∀ x ∈ hs, x ≤ hs.foldl max c := by
  induction hs generalizing c with
  | nil => intro x hx; cases hx
  | cons h t ih =>
    intro x hx
    rcases List.mem_cons.mp hx with rfl | hx'
    · exact le_trans (le_max_right c x) (le_foldl_max t (max c x))
    · exact ih (max c h) x hx'

theorem foldl_min_le (hs : List ℤ) (c : ℤ) : hs.foldl min c ≤ c := by
  induction hs generalizing c with
  | nil => exact le_refl c
  | cons h t ih => exact le_trans (ih (min c h)) (min_le_left c h)

theorem foldl_min_le_mem (hs : List ℤ) (c : ℤ) : ∀ x ∈ hs, hs.foldl min c ≤ x := by
  induction hs generalizing c with
  | nil => intro x hx; cases hx
  | cons h t ih =>
    intro x hx
    rcases List.mem_cons.mp hx with rfl | hx'
    · exact le_trans (foldl_min_le t (min c x)) (min_le_right c x)
    · exact ih (min c h) x hx'

/-- Characterization of the business-day test. -/
theorem isBusinessDay_eq_true {d : ℤ} {hs : List ℤ} :
    isBusinessDay d hs = true ↔ pyWeekday d < 5 ∧ d ∉ hs := by
  simp [isBusinessDay]

/-- In either direction there is a business day strictly within the `seekFuel`
bound: some day past every holiday whose weekday is Monday. -/
theorem exists_seek_target (hs : List ℤ) (step c : ℤ)
    (hstep : step = 1 ∨ step = -1) :
    ∃ j : ℕ, 0 < j ∧ j ≤ seekFuel hs step c ∧
      isBusinessDay (c + step * j) hs = true := by
  rcases hstep with rfl | rfl
  · -- forward: aim at a Monday in (M, M+7], M the largest of c and all holidays
    set M := hs.foldl max c with hM
    have hcM : c ≤ M := le_foldl_max hs c
    have hmem : ∀ x ∈ hs, x ≤ M := mem_le_foldl_max hs c
    set r := (4 - (M + 1)) % 7 with hr
    have hr0 : 0 ≤ r := Int.emod_nonneg _ (by norm_num)
    have hr7 : r < 7 := Int.emod_lt_of_pos _ (by norm_num)
    refine ⟨(M + 1 + r - c).toNat, ?_, ?_, ?_⟩
    · omega
    · have : seekFuel hs 1 c = (M + 8 - c).toNat := by
        simp [seekFuel, hM]
      omega
    · have hcast : ((M + 1 + r - c).toNat : ℤ) = M + 1 + r - c := by omega
      rw [isBusinessDay_eq_true]
      constructor
      · have : c + 1 * ((M + 1 + r - c).toNat : ℤ) = M + 1 + r := by omega
        rw [this, pyWeekday]
        omega
      · intro hmem'
        have := hmem _ hmem'
        omega
  · -- backward: aim at a Monday in [M-7, M-1], M the least of c and all holidays
    set M := hs.foldl min c with hM
    have hcM : M ≤ c := foldl_min_le hs c
    have hmem : ∀ x ∈ hs, M ≤ x := foldl_min_le_mem hs c
    set r := ((M - 1) - 4) % 7 with hr
    have hr0 : 0 ≤ r := Int.emod_nonneg _ (by norm_num)
    have hr7 : r < 7 := Int.emod_lt_of_pos _ (by norm_num)
    refine ⟨(c - (M - 1 - r)).toNat, ?_, ?_, ?_⟩
    · omega
    · have : seekFuel hs (-1) c = (c + 8 - M).toNat := by
        simp [seekFuel, hM]
      omega
    · have hcast : ((c - (M - 1 - r)).toNat : ℤ) = c - (M - 1 - r) := by omega
      rw [isBusinessDay_eq_true]
      constructor
      · have : c + (-1) * ((c - (M - 1 - r)).toNat : ℤ) = M - 1 - r := by omega
        rw [this, pyWeekday]
        omega
      · intro hmem'
        have := hmem _ hmem'
        omega

/-- The bounded search finds the nearest business day in its direction, given
enough fuel. -/
theorem seekBusinessDay_eq (hs : List ℤ) (step : ℤ) :
    ∀ (j : ℕ) (f : ℕ) (c : ℤ), 0 < j →
      isBusinessDay (c + step * j) hs = true →
      (∀ i : ℕ, 0 < i → i < j → isBusinessDay (c + step * i) hs = false) →
      j ≤ f → seekBusinessDay hs step f c = c + step * j := by
  intro j
  induction j with
  | zero => intro f c h; omega
  | succ j ih =>
    intro f c _ hbd hmin hf
    obtain ⟨f', rfl⟩ : ∃ f', f = f' + 1 := ⟨f - 1, by omega⟩
    by_cases hj : j = 0
    · subst hj
      have h1 : c + step * ((1 : ℕ) : ℤ) = c + step := by push_cast; ring
      rw [h1] at hbd
      simp [seekBusinessDay, hbd]
    · have hbd1 : isBusinessDay (c + step) hs = false := by
        have := hmin 1 (by omega) (by omega)
        have h1 : c + step * ((1 : ℕ) : ℤ) = c + step := by push_cast; ring
        rwa [h1] at this
      have step_eq : seekBusinessDay hs step (f' + 1) c = seekBusinessDay hs step f' (c + step) := by
        simp [seekBusinessDay, hbd1]
      rw [step_eq]
      have hshift : ∀ i : ℕ, c + step * ((i : ℤ) + 1) = (c + step) + step * i := by
        intro i; ring
      have hbd' : isBusinessDay ((c + step) + step * j) hs = true := by
        have : c + step * ((j + 1 : ℕ) : ℤ) = (c + step) + step * j := by push_cast; ring
        rwa [this] at hbd
      have hmin' : ∀ i : ℕ, 0 < i → i < j → isBusinessDay ((c + step) + step * i) hs = false := by
        intro i hi hij
        have := hmin (i + 1) (by omega) (by omega)
        have hc : c + step * ((i + 1 : ℕ) : ℤ) = (c + step) + step * i := by push_cast; ring
        rwa [hc] at this
      have := ih f' (c + step) (by omega) hbd' hmin' (by omega)
      rw [this]
      push_cast
      ring

/-- Running the literal loop past the nearest business day consumes exactly one
unit of `days_remaining`. -/
theorem addBusinessDaysLoop_skip (hs : List ℤ) (step : ℤ) :
    ∀ (j : ℕ) (f : ℕ) (c : ℤ) (n : ℕ), 0 < j →
      isBusinessDay (c + step * j) hs = true →
      (∀ i : ℕ, 0 < i → i < j → isBusinessDay (c + step * i) hs = false) →
      addBusinessDaysLoop hs step (j + f) c (n + 1) =
        addBusinessDaysLoop hs step f (c + step * j) n := by
  intro j
  induction j with
  | zero => intro f c n h; omega
  | succ j ih =>
    intro f c n _ hbd hmin
    by_cases hj : j = 0
    · subst hj
      have h1 : c + step * ((1 : ℕ) : ℤ) = c + step := by push_cast; ring
      rw [h1] at hbd ⊢
      have : (1 : ℕ) + f = f + 1 := by omega
      rw [this]
      simp [addBusinessDaysLoop, hbd]
    · have hbd1 : isBusinessDay (c + step) hs = false := by
        have := hmin 1 (by omega) (by omega)
        have h1 : c + step * ((1 : ℕ) : ℤ) = c + step := by push_cast; ring
        rwa [h1] at this
      have hstep1 : (j + 1) + f = (j + f) + 1 := by omega
      rw [hstep1]
      have hunf : addBusinessDaysLoop hs step ((j + f) + 1) c (n + 1) =
          addBusinessDaysLoop hs step (j + f) (c + step) (n + 1) := by
        simp [addBusinessDaysLoop, hbd1]
      rw [hunf]
      have hbd' : isBusinessDay ((c + step) + step * j) hs = true := by
        have : c + step * ((j + 1 : ℕ) : ℤ) = (c + step) + step * j := by push_cast; ring
        rwa [this] at hbd
      have hmin' : ∀ i : ℕ, 0 < i → i < j → isBusinessDay ((c + step) + step * i) hs = false := by
        intro i hi hij
        have := hmin (i + 1) (by omega) (by omega)
        have hc : c + step * ((i + 1 : ℕ) : ℤ) = (c + step) + step * i := by push_cast; ring
        rwa [hc] at this
      have := ih f (c + step) n (by omega) hbd' hmin'
      rw [this]
      have : (c + step) + step * (j : ℤ) = c + step * ((j + 1 : ℕ) : ℤ) := by push_cast; ring
      rw [this]

/-- The literal `add_business_days` loop terminates and agrees with the total
embedding, for either direction of travel. -/
theorem addBusinessDaysLoop_agree (hs : List ℤ) (step : ℤ)
    (hstep : step = 1 ∨ step = -1) :
    ∀ (n : ℕ) (c : ℤ), ∃ fuel,
      addBusinessDaysLoop hs step fuel c n =
        some (addBusinessDaysGo hs step n c) := by
  intro n
  induction n with
  | zero =>
    intro c
    exact ⟨0, by simp [addBusinessDaysLoop, addBusinessDaysGo]⟩
  | succ n ih =>
    intro c
    have hex := exists_seek_target hs step c hstep
    classical
    have hexP : ∃ j : ℕ, 0 < j ∧ isBusinessDay (c + step * j) hs = true := by
      obtain ⟨j, hj0, _, hjb⟩ := hex
      exact ⟨j, hj0, hjb⟩
    set jm := Nat.find hexP with hjm
    obtain ⟨hjm0, hjmb⟩ := Nat.find_spec hexP
    have hjmin : ∀ i : ℕ, 0 < i → i < jm → isBusinessDay (c + step * i) hs = false := by
      intro i hi hij
      have := Nat.find_min hexP (m := i) (by omega)
      by_contra hb
      exact this ⟨hi, by revert hb; cases h : isBusinessDay (c + step * i) hs <;> simp⟩
    have hjle : jm ≤ seekFuel hs step c := by
      obtain ⟨j, hj0, hjf, hjb⟩ := hex
      have : jm ≤ j := Nat.find_min' hexP ⟨hj0, hjb⟩
      omega
    have hseek : seekBusinessDay hs step (seekFuel hs step c) c = c + step * jm :=
      seekBusinessDay_eq hs step jm (seekFuel hs step c) c hjm0 hjmb hjmin hjle
    obtain ⟨f, hf⟩ := ih (c + step * jm)
    refine ⟨jm + f, ?_⟩
    rw [addBusinessDaysLoop_skip hs step jm f c n hjm0 hjmb hjmin, hf]
    have : addBusinessDaysGo hs step (n + 1) c =
        addBusinessDaysGo hs step n (c + step * jm) := by
      rw [addBusinessDaysGo, hseek]
    rw [this]

/-- The bounded inclusive backward search finds the nearest business day at or
before its start, given enough fuel. -/
theorem seekBackIncl_eq (hs : List ℤ) :
    ∀ (j : ℕ) (f : ℕ) (d : ℤ),
      isBusinessDay (d - j) hs = true →
      (∀ i : ℕ, i < j → isBusinessDay (d - i) hs = false) →
      j ≤ f → seekBackIncl hs f d = d - j := by
  intro j
  induction j with
  | zero =>
    intro f d hbd _ _
    cases f with
    | zero => simp [seekBackIncl]
    | succ f =>
      have h0 : d - ((0 : ℕ) : ℤ) = d := by push_cast; ring
      rw [h0] at hbd
      simp [seekBackIncl, hbd]
  | succ j ih =>
    intro f d hbd hmin hf
    obtain ⟨f', rfl⟩ : ∃ f', f = f' + 1 := ⟨f - 1, by omega⟩
    have hbd0 : isBusinessDay d hs = false := by
      have := hmin 0 (by omega)
      have h0 : d - ((0 : ℕ) : ℤ) = d := by push_cast; ring
      rwa [h0] at this
    have hunf : seekBackIncl hs (f' + 1) d = seekBackIncl hs f' (d - 1) := by
      simp [seekBackIncl, hbd0]
    rw [hunf]
    have hbd' : isBusinessDay ((d - 1) - j) hs = true := by
      have : d - ((j + 1 : ℕ) : ℤ) = (d - 1) - j := by push_cast; ring
      rwa [this] at hbd
    have hmin' : ∀ i : ℕ, i < j → isBusinessDay ((d - 1) - i) hs = false := by
      intro i hij
      have := hmin (i + 1) (by omega)
      have hc : d - ((i + 1 : ℕ) : ℤ) = (d - 1) - i := by push_cast; ring
      rwa [hc] at this
    have := ih f' (d - 1) hbd' hmin' (by omega)
    rw [this]
    push_cast
    ring

/-- The literal `get_last_business_day_of_month` loop terminates with the value
of the total embedding's bounded search. -/
theorem lastBusinessDayLoop_eq (hs : List ℤ) :
    ∀ (j : ℕ) (d : ℤ),
      isBusinessDay (d - j) hs = true →
      (∀ i : ℕ, i < j → isBusinessDay (d - i) hs = false) →
      ∃ fuel, lastBusinessDayLoop hs fuel d = some (d - j) := by
  intro j
  induction j with
  | zero =>
    intro d hbd _
    have h0 : d - ((0 : ℕ) : ℤ) = d := by push_cast; ring
    rw [h0] at hbd ⊢
    exact ⟨1, by simp [lastBusinessDayLoop, hbd]⟩
  | succ j ih =>
    intro d hbd hmin
    have hbd0 : isBusinessDay d hs = false := by
      have := hmin 0 (by omega)
      have h0 : d - ((0 : ℕ) : ℤ) = d := by push_cast; ring
      rwa [h0] at this
    have hbd' : isBusinessDay ((d - 1) - j) hs = true := by
      have : d - ((j + 1 : ℕ) : ℤ) = (d - 1) - j := by push_cast; ring
      rwa [this] at hbd
    have hmin' : ∀ i : ℕ, i < j → isBusinessDay ((d - 1) - i) hs = false := by
      intro i hij
      have := hmin (i + 1) (by omega)
      have hc : d - ((i + 1 : ℕ) : ℤ) = (d - 1) - i := by push_cast; ring
      rwa [hc] at this
    obtain ⟨f, hf⟩ := ih (d - 1) hbd' hmin'
    refine ⟨f + 1, ?_⟩
    have hunf : lastBusinessDayLoop hs (f + 1) d = lastBusinessDayLoop hs f (d - 1) := by
      simp [lastBusinessDayLoop, hbd0]
    rw [hunf, hf]
    congr 1
    push_cast
    ring

/-- C10: For every start date, every integer day count (positive, negative, or
zero) and every finite holiday list, the `add_business_days` while loop
terminates (some finite fuel makes the literal loop return) with the value of
the total embedding; and likewise for every (year, month) the
`get_last_business_day_of_month` while loop terminates with the value of the
total embedding. Both loops are therefore total functions of their inputs. -/
theorem add_business_days_and_last_business_day_terminate :
    (∀ (start_date days : ℤ) (holidays : List ℤ), ∃ fuel,
        addBusinessDaysLoop holidays (if 0 ≤ days then 1 else -1) fuel
          start_date days.natAbs = some (add_business_days start_date days holidays)) ∧
    (∀ (year month : ℤ) (holidays : List ℤ), ∃ fuel,
        lastBusinessDayLoop holidays fuel (endOfMonthDay year month) =
          some (get_last_business_day_of_month year month holidays)) := by
  constructor
  · intro start_date days holidays
    have hstep : (if 0 ≤ days then (1 : ℤ) else -1) = 1 ∨
        (if 0 ≤ days then (1 : ℤ) else -1) = -1 := by
      split <;> simp
    have := addBusinessDaysLoop_agree holidays _ hstep days.natAbs start_date
    rw [add_business_days]
    exact this
  · intro year month holidays
    classical
    set d := endOfMonthDay year month with hd
    have hex := exists_seek_target holidays (-1) d (Or.inr rfl)
    have hexP : ∃ j : ℕ, isBusinessDay (d - j) holidays = true := by
      obtain ⟨j, _, _, hjb⟩ := hex
      refine ⟨j, ?_⟩
      have : d + (-1) * (j : ℤ) = d - j := by ring
      rwa [this] at hjb
    set jm := Nat.find hexP with hjm
    have hjmb := Nat.find_spec hexP
    have hjmin : ∀ i : ℕ, i < jm → isBusinessDay (d - i) holidays = false := by
      intro i hij
      have := Nat.find_min hexP (m := i) (by omega)
      revert this
      cases h : isBusinessDay (d - i) holidays <;> simp
    have hjle : jm ≤ seekFuel holidays (-1) d := by
      obtain ⟨j, _, hjf, hjb⟩ := hex
      have hj' : isBusinessDay (d - j) holidays = true := by
        have : d + (-1) * (j : ℤ) = d - j := by ring
        rwa [this] at hjb
      have : jm ≤ j := Nat.find_min' hexP hj'
      omega
    have hval : get_last_business_day_of_month year month holidays = d - jm := by
      rw [get_last_business_day_of_month]
      exact seekBackIncl_eq holidays jm (seekFuel holidays (-1) d) d hjmb hjmin hjle
    obtain ⟨fuel, hf⟩ := lastBusinessDayLoop_eq holidays jm d hjmb hjmin
    exact ⟨fuel, by rw [hf, hval]⟩

/-! Lemmas about the stable sort and the segment construction. -/

theorem insertByDate_length (p : Payment) : ∀ l : List Payment,
    (insertByDate p l).length = l.length + 1 := by
  intro l
  induction l with
  | nil => rfl
  | cons q rest ih =>
    rw [insertByDate]
    split
    · simp
    · simp [ih]

theorem sortByDate_length : ∀ l : List Payment, (sortByDate l).length = l.length := by
  intro l
  induction l with
  | nil => rfl
  | cons p rest ih => rw [sortByDate, insertByDate_length, ih, List.length_cons]

theorem insertByDate_map_amount_sum (p : Payment) : ∀ l : List Payment,
    ((insertByDate p l).map Payment.amount).sum = p.amount + (l.map Payment.amount).sum := by
  intro l
  induction l with
  | nil => simp [insertByDate]
  | cons q rest ih =>
    rw [insertByDate]
    split
    · simp
    · simp only [List.map_cons, List.sum_cons, ih]
      ring

theorem sortByDate_map_amount_sum : ∀ l : List Payment,
    ((sortByDate l).map Payment.amount).sum = (l.map Payment.amount).sum := by
  intro l
  induction l with
  | nil => rfl
  | cons p rest ih =>
    rw [sortByDate, insertByDate_map_amount_sum, ih, List.map_cons, List.sum_cons]

/-- Structure of the segment list built by `buildSegments`: one segment more
than there are events; the final principal is the start principal less all
event amounts; segment `i` runs from the day after event `i-1` (or the period
start) to event `i`'s date (or the period end) and is priced at the principal
before event `i`. -/
theorem buildSegments_facts (pe : ℤ) : ∀ (evs : List Payment) (s : ℤ) (p : ℚ),
    (buildSegments pe s p evs).1.length = evs.length + 1 ∧
    (buildSegments pe s p evs).2 = p - (evs.map Payment.amount).sum ∧
    ∀ i : ℕ, i < evs.length + 1 →
      ((buildSegments pe s p evs).1.getD i default).seg_start =
        (if i = 0 then s else (evs.getD (i - 1) default).payment_date + 1) ∧
      ((buildSegments pe s p evs).1.getD i default).seg_end =
        (if i = evs.length then pe else (evs.getD i default).payment_date) ∧
      ((buildSegments pe s p evs).1.getD i default).principal =
        p - ((evs.take i).map Payment.amount).sum := by
  intro evs
  induction evs with
  | nil =>
    intro s p
    refine ⟨rfl, by simp [buildSegments], ?_⟩
    intro i hi
    have hi0 : i = 0 := by simp at hi; omega
    subst hi0
    simp [buildSegments]
  | cons e rest ih =>
    intro s p
    obtain ⟨ihlen, ihend, ihidx⟩ := ih (e.payment_date + 1) (p - e.amount)
    refine ⟨?_, ?_, ?_⟩
    · simp [buildSegments, ihlen]
    · simp only [buildSegments, ihend, List.map_cons, List.sum_cons]
      ring
    · intro i hi
      match i with
      | 0 =>
        refine ⟨by simp [buildSegments], ?_, by simp [buildSegments]⟩
        have : ¬ (0 = (e :: rest).length) := by simp
        rw [if_neg this]
        simp [buildSegments]
      | Nat.succ i' =>
        have hgetD : ((buildSegments pe s p (e :: rest)).1.getD (i' + 1) default) =
            ((buildSegments pe (e.payment_date + 1) (p - e.amount) rest).1.getD i' default) := by
          simp [buildSegments]
        have hlt : i' < rest.length + 1 := by
          simpa using hi
        obtain ⟨hstart, hend, hprin⟩ := ihidx i' hlt
        refine ⟨?_, ?_, ?_⟩
        · rw [hgetD, hstart]
          by_cases h0 : i' = 0
          · subst h0; simp
          · rw [if_neg h0, if_neg (by omega : ¬ i' + 1 = 0)]
            have h1 : i' + 1 - 1 = i' := by omega
            rw [h1]
            obtain ⟨i'', rfl⟩ : ∃ i'', i' = i'' + 1 := ⟨i' - 1, by omega⟩
            simp
        · rw [hgetD, hend]
          by_cases hL : i' = rest.length
          · subst hL; simp
          · rw [if_neg hL, if_neg (by simp [hL] : ¬ i' + 1 = (e :: rest).length)]
            simp
        · rw [hgetD, hprin]
          simp only [List.take_succ_cons, List.map_cons, List.sum_cons]
          ring

/-- Inclusive segment day counts telescope to the inclusive span from the
first segment's start to the period end. -/
theorem buildSegments_days_sum (pe : ℤ) : ∀ (evs : List Payment) (s : ℤ) (p : ℚ),
    (((buildSegments pe s p evs).1.map (fun g => g.seg_end - g.seg_start + 1)).sum) =
      pe - s + 1 := by
  intro evs
  induction evs with
  | nil => intro s p; simp [buildSegments]
  | cons e rest ih =>
    intro s p
    simp only [buildSegments, List.map_cons, List.sum_cons, ih (e.payment_date + 1) (p - e.amount)]
    ring

theorem toDetails_length (rate : ℚ) : ∀ (segs : List Seg) (n : ℕ),
    (toDetails rate n segs).length = segs.length := by
  intro segs
  induction segs with
  | nil => intro n; rfl
  | cons s rest ih => intro n; simp [toDetails, ih]

theorem toDetails_getD (rate : ℚ) : ∀ (segs : List Seg) (n : ℕ) (i : ℕ), i < segs.length →
    (toDetails rate n segs).getD i default =
      ⟨n + i, (segs.getD i default).seg_start, (segs.getD i default).seg_end,
       (segs.getD i default).seg_end - (segs.getD i default).seg_start + 1,
       (segs.getD i default).principal,
       calculate_period_interest (segs.getD i default).principal rate
         ((segs.getD i default).seg_end - (segs.getD i default).seg_start + 1)⟩ := by
  intro segs
  induction segs with
  | nil => intro n i hi; simp at hi
  | cons s rest ih =>
    intro n i hi
    match i with
    | 0 => simp [toDetails]
    | Nat.succ i' =>
      have hlt : i' < rest.length := by simpa using hi
      simp only [toDetails, List.getD_cons_succ]
      rw [ih (n + 1) i' hlt]
      have : n + 1 + i' = n + (i' + 1) := by omega
      rw [this]

theorem toDetails_map_days (rate : ℚ) : ∀ (segs : List Seg) (n : ℕ),
    (toDetails rate n segs).map SegmentDetail.days =
      segs.map (fun g => g.seg_end - g.seg_start + 1) := by
  intro segs
  induction segs with
  | nil => intro n; rfl
  | cons s rest ih => intro n; simp [toDetails, ih]

/-! Lemmas about a single engine step. -/

theorem scheduleStep_state {l : Loan} {rates : ℤ → Option ℚ}
    {elections : ℕ → Option Bool} {pp : List Payment} {cur pre : ℚ}
    {period : Period} {ent : ScheduleEntry} {s1 s2 : ℚ}
    (h : scheduleStep l rates elections pp cur pre period = .ok (ent, s1, s2)) :
    ent.principal_beginning = cur ∧ ent.prepaid_balance_start = pre ∧
      s1 = ent.principal_ending ∧ s2 = ent.prepaid_balance_end ∧
      ent.period_number = period.period_number ∧
      ent.start_date = period.start_date ∧ ent.end_date = period.end_date ∧
      ent.days = period.days := by
  unfold scheduleStep at h
  cases hr : rates (add_business_days period.start_date (-2) l.holidays) with
  | none => simp only [hr] at h; exact Except.noConfusion h
  | some sofr =>
    simp only [hr, Except.ok.injEq, Prod.mk.injEq] at h
    obtain ⟨he, h1, h2⟩ := h
    subst he h1 h2
    exact ⟨rfl, rfl, rfl, rfl, rfl, rfl, rfl, rfl⟩

theorem scheduleStep_identity {l : Loan} {rates : ℤ → Option ℚ}
    {elections : ℕ → Option Bool} {pp : List Payment} {cur pre : ℚ}
    {period : Period} {ent : ScheduleEntry} {s1 s2 : ℚ}
    (h : scheduleStep l rates elections pp cur pre period = .ok (ent, s1, s2)) :
    ent.interest_owed = ent.prepaid_applied + ent.pik_amount + ent.cash_due := by
  unfold scheduleStep at h
  cases hr : rates (add_business_days period.start_date (-2) l.holidays) with
  | none => simp only [hr] at h; exact Except.noConfusion h
  | some sofr =>
    simp only [hr, Except.ok.injEq, Prod.mk.injEq] at h
    obtain ⟨he, h1, h2⟩ := h
    subst he
    have hc : (stepEntryOf l sofr elections pp cur pre period).cash_due =
        (stepEntryOf l sofr elections pp cur pre period).interest_owed -
          (stepEntryOf l sofr elections pp cur pre period).prepaid_applied -
          (stepEntryOf l sofr elections pp cur pre period).pik_amount := rfl
    rw [hc]
    ring

/-- Characterization of a successful engine step: the rate lookup succeeded and
the outputs are exactly `stepEntryOf` and its carried state. -/
theorem scheduleStep_ok {l : Loan} {rates : ℤ → Option ℚ}
    {elections : ℕ → Option Bool} {pp : List Payment} {cur pre : ℚ}
    {period : Period} {ent : ScheduleEntry} {s1 s2 : ℚ}
    (h : scheduleStep l rates elections pp cur pre period = .ok (ent, s1, s2)) :
    ∃ sofr_rate,
      rates (add_business_days period.start_date (-2) l.holidays) = some sofr_rate ∧
      ent = stepEntryOf l sofr_rate elections pp cur pre period ∧
      s1 = ent.principal_ending ∧ s2 = ent.prepaid_balance_end := by
  unfold scheduleStep at h
  cases hr : rates (add_business_days period.start_date (-2) l.holidays) with
  | none => simp only [hr] at h; exact Except.noConfusion h
  | some sofr =>
    simp only [hr, Except.ok.injEq, Prod.mk.injEq] at h
    obtain ⟨he, h1, h2⟩ := h
    exact ⟨sofr, rfl, he.symm, by rw [← he]; exact h1.symm,
           by rw [← he]; exact h2.symm⟩

/-- A failing engine step is exactly a failed rate lookup. -/
theorem scheduleStep_error_iff {l : Loan} {rates : ℤ → Option ℚ}
    {elections : ℕ → Option Bool} {pp : List Payment} {cur pre : ℚ}
    {period : Period} :
    (∃ err, scheduleStep l rates elections pp cur pre period = .error err) ↔
      rates (add_business_days period.start_date (-2) l.holidays) = none := by
  unfold scheduleStep
  cases hr : rates (add_business_days period.start_date (-2) l.holidays) with
  | none => simp
  | some sofr => simp

/-- Field values of `stepEntryOf` (all definitional). -/
theorem stepEntryOf_fields (l : Loan) (sofr_rate : ℚ)
    (elections : ℕ → Option Bool) (pp : List Payment) (cur pre : ℚ)
    (period : Period) :
    (stepEntryOf l sofr_rate elections pp cur pre period).period_number = period.period_number ∧
    (stepEntryOf l sofr_rate elections pp cur pre period).start_date = period.start_date ∧
    (stepEntryOf l sofr_rate elections pp cur pre period).end_date = period.end_date ∧
    (stepEntryOf l sofr_rate elections pp cur pre period).days = period.days ∧
    (stepEntryOf l sofr_rate elections pp cur pre period).principal_beginning = cur ∧
    (stepEntryOf l sofr_rate elections pp cur pre period).prepaid_balance_start = pre ∧
    (stepEntryOf l sofr_rate elections pp cur pre period).interest_owed =
      (interestAccrualOf cur
        (calculate_effective_rate sofr_rate l.margin l.sofr_floor l.sofr_ceiling)
        pp period).1 ∧
    (stepEntryOf l sofr_rate elections pp cur pre period).prepaid_applied =
      prepaidAppliedOf pre (stepEntryOf l sofr_rate elections pp cur pre period).interest_owed ∧
    (stepEntryOf l sofr_rate elections pp cur pre period).prepaid_balance_end =
      prepaidEndOf pre (stepEntryOf l sofr_rate elections pp cur pre period).interest_owed ∧
    (stepEntryOf l sofr_rate elections pp cur pre period).pik_elected =
      pikElectedOf elections period.period_number pre ∧
    (stepEntryOf l sofr_rate elections pp cur pre period).pik_amount =
      pikAmountOf (pikElectedOf elections period.period_number pre)
        (interestAccrualOf cur
          (calculate_effective_rate sofr_rate l.margin l.sofr_floor l.sofr_ceiling)
          pp period).2.1
        l.pik_rate period.days
        (stepEntryOf l sofr_rate elections pp cur pre period).interest_owed ∧
    (stepEntryOf l sofr_rate elections pp cur pre period).cash_due =
      (stepEntryOf l sofr_rate elections pp cur pre period).interest_owed -
        (stepEntryOf l sofr_rate elections pp cur pre period).prepaid_applied -
        (stepEntryOf l sofr_rate elections pp cur pre period).pik_amount ∧
    (stepEntryOf l sofr_rate elections pp cur pre period).principal_ending =
      principalEndingOf (pikElectedOf elections period.period_number pre)
        (interestAccrualOf cur
          (calculate_effective_rate sofr_rate l.margin l.sofr_floor l.sofr_ceiling)
          pp period).2.1
        (stepEntryOf l sofr_rate elections pp cur pre period).pik_amount ∧
    (stepEntryOf l sofr_rate elections pp cur pre period).segments =
      (interestAccrualOf cur
        (calculate_effective_rate sofr_rate l.margin l.sofr_floor l.sofr_ceiling)
        pp period).2.2 ∧
    (stepEntryOf l sofr_rate elections pp cur pre period).prepayments =
      periodPrepaymentsOf pp period :=
  ⟨rfl, rfl, rfl, rfl, rfl, rfl, rfl, rfl, rfl, rfl, rfl, rfl, rfl, rfl, rfl⟩

/-- PIK amount is zero whenever the effective election is false. -/
theorem pikAmountOf_of_false {b : Bool} (pap r : ℚ) (d : ℤ) (I : ℚ)
    (h : b = false) : pikAmountOf b pap r d I = 0 := by
  rw [h]; rfl

/-- Core arithmetic fact behind `cash_due >= 0`: with a non-negative interest
figure, drawing prepaid interest (capped at the interest) and a PIK amount
(capped at the interest, and only permitted when the prepaid balance is zero)
never over-draws. -/
theorem cash_nonneg_core (e : ℕ → Option Bool) (n : ℕ) (I pre pap r : ℚ)
    (d : ℤ) (hI : 0 ≤ I) :
    0 ≤ I - prepaidAppliedOf pre I - pikAmountOf (pikElectedOf e n pre) pap r d I := by
  by_cases hpre : 0 < pre
  · have hne : ¬ (pre = 0) := by intro h; rw [h] at hpre; exact lt_irrefl 0 hpre
    have hel : pikElectedOf e n pre = false := by
      unfold pikElectedOf
      simp [hne]
    rw [pikAmountOf_of_false _ _ _ _ hel]
    unfold prepaidAppliedOf
    rw [if_pos hpre]
    have := min_le_right pre I
    linarith
  · unfold prepaidAppliedOf
    rw [if_neg hpre]
    unfold pikAmountOf
    split
    · simp only []
      split
      · linarith
      · rename_i hnlt
        have : calculate_period_interest pap r d ≤ I := le_of_not_lt hnlt
        linarith
    · linarith

/-- Ending principal of the accrual branch: the running principal less every
in-period prepayment amount (zero prepayments deduct nothing). -/
theorem interestAccrualOf_pap (cur eff : ℚ) (pp : List Payment) (period : Period) :
    (interestAccrualOf cur eff pp period).2.1 =
      cur - ((periodPrepaymentsOf pp period).map Payment.amount).sum := by
  unfold interestAccrualOf
  split
  · rename_i hempty
    rw [List.isEmpty_iff] at hempty
    rw [hempty]
    simp
  · unfold calculate_segmented_interest
    simp only []
    have hb := (buildSegments_facts period.end_date
      (sortByDate (periodPrepaymentsOf pp period)) period.start_date cur).2.1
    unfold periodPrepaymentsOf at hb ⊢
    rw [hb, sortByDate_map_amount_sum]

/-- Segment list of the accrual branch: empty without in-period prepayments;
with k of them, k + 1 segments whose inclusive day counts sum to the period's
inclusive span. -/
theorem interestAccrualOf_segments (cur eff : ℚ) (pp : List Payment) (period : Period) :
    ((periodPrepaymentsOf pp period).isEmpty = true →
      (interestAccrualOf cur eff pp period).2.2 = []) ∧
    ((periodPrepaymentsOf pp period).isEmpty = false →
      (interestAccrualOf cur eff pp period).2.2.length =
        (periodPrepaymentsOf pp period).length + 1 ∧
      ((interestAccrualOf cur eff pp period).2.2.map SegmentDetail.days).sum =
        period.end_date - period.start_date + 1) := by
  constructor
  · intro hempty
    unfold interestAccrualOf
    rw [if_pos hempty]
  · intro hne
    unfold interestAccrualOf
    rw [if_neg (by rw [hne]; exact Bool.false_ne_true)]
    unfold calculate_segmented_interest
    simp only []
    constructor
    · rw [toDetails_length,
        (buildSegments_facts period.end_date _ period.start_date cur).1,
        sortByDate_length]
      rfl
    · rw [toDetails_map_days, buildSegments_days_sum]

/-- An accepted schedule is chained from the initial state. -/
theorem scheduleGo_chained {l : Loan} {rates : ℤ → Option ℚ}
    {elections : ℕ → Option Bool} {pp : List Payment} :
    ∀ (periods : List Period) (cur pre : ℚ) (sched : List ScheduleEntry),
      scheduleGo l rates elections pp periods cur pre = .ok sched →
      ChainedFrom cur pre sched := by
  intro periods
  induction periods with
  | nil =>
    intro cur pre sched h
    unfold scheduleGo at h
    simp only [Except.ok.injEq] at h
    rw [← h]
    trivial
  | cons period rest ih =>
    intro cur pre sched h
    unfold scheduleGo at h
    cases hs : scheduleStep l rates elections pp cur pre period with
    | error e => simp only [hs] at h; exact Except.noConfusion h
    | ok out =>
      obtain ⟨ent, s1, s2⟩ := out
      simp only [hs] at h
      cases ht : scheduleGo l rates elections pp rest s1 s2 with
      | error e => simp only [ht] at h; exact Except.noConfusion h
      | ok tail =>
        simp only [ht, Except.ok.injEq] at h
        subst h
        obtain ⟨sofr, hr, hent, h1, h2⟩ := scheduleStep_ok hs
        subst hent
        subst h1
        subst h2
        exact ⟨rfl, rfl, ih _ _ tail ht⟩

/-- Every entry of an accepted schedule is the output of a successful step on
some period of the list. -/
theorem scheduleGo_mem {l : Loan} {rates : ℤ → Option ℚ}
    {elections : ℕ → Option Bool} {pp : List Payment} :
    ∀ (periods : List Period) (cur pre : ℚ) (sched : List ScheduleEntry),
      scheduleGo l rates elections pp periods cur pre = .ok sched →
      ∀ ent ∈ sched, ∃ (cur' pre' : ℚ) (period : Period) (s1 s2 : ℚ),
        period ∈ periods ∧
        scheduleStep l rates elections pp cur' pre' period = .ok (ent, s1, s2) := by
  intro periods
  induction periods with
  | nil =>
    intro cur pre sched h
    unfold scheduleGo at h
    simp only [Except.ok.injEq] at h
    rw [← h]
    intro ent hent
    cases hent
  | cons period rest ih =>
    intro cur pre sched h
    unfold scheduleGo at h
    cases hs : scheduleStep l rates elections pp cur pre period with
    | error e => simp only [hs] at h; exact Except.noConfusion h
    | ok out =>
      obtain ⟨ent0, s1, s2⟩ := out
      simp only [hs] at h
      cases ht : scheduleGo l rates elections pp rest s1 s2 with
      | error e => simp only [ht] at h; exact Except.noConfusion h
      | ok tail =>
        simp only [ht, Except.ok.injEq] at h
        subst h
        intro ent hent
        rcases List.mem_cons.mp hent with rfl | htail
        · exact ⟨cur, pre, period, s1, s2, List.mem_cons_self _ _, hs⟩
        · obtain ⟨cur', pre', period', s1', s2', hmem, hstep⟩ :=
            ih s1 s2 tail ht ent htail
          exact ⟨cur', pre', period', s1', s2', List.mem_cons_of_mem _ hmem, hstep⟩

/-- The fold fails exactly when some period's reset-date rate is missing. -/
theorem scheduleGo_error_iff {l : Loan} {rates : ℤ → Option ℚ}
    {elections : ℕ → Option Bool} {pp : List Payment} :
    ∀ (periods : List Period) (cur pre : ℚ),
      (∃ err, scheduleGo l rates elections pp periods cur pre = .error err) ↔
      ∃ period ∈ periods,
        rates (add_business_days period.start_date (-2) l.holidays) = none := by
  intro periods
  induction periods with
  | nil =>
    intro cur pre
    constructor
    · rintro ⟨err, h⟩
      unfold scheduleGo at h
      exact Except.noConfusion h
    · rintro ⟨period, hmem, _⟩
      cases hmem
  | cons period rest ih =>
    intro cur pre
    cases hrv : rates (add_business_days period.start_date (-2) l.holidays) with
    | none =>
      constructor
      · intro _
        exact ⟨period, List.mem_cons_self _ _, hrv⟩
      · intro _
        obtain ⟨err, herr⟩ :=
          (@scheduleStep_error_iff l rates elections pp cur pre period).mpr hrv
        refine ⟨err, ?_⟩
        unfold scheduleGo
        simp only [herr]
    | some sofr =>
      cases hs : scheduleStep l rates elections pp cur pre period with
      | error e =>
        have := (@scheduleStep_error_iff l rates elections pp cur pre period).mp ⟨e, hs⟩
        rw [hrv] at this
        exact Option.noConfusion this
      | ok out =>
        obtain ⟨ent0, s1, s2⟩ := out
        constructor
        · rintro ⟨err, h⟩
          unfold scheduleGo at h
          simp only [hs] at h
          cases ht : scheduleGo l rates elections pp rest s1 s2 with
          | error e =>
            obtain ⟨period', hmem, hnone⟩ := (ih s1 s2).mp ⟨e, ht⟩
            exact ⟨period', List.mem_cons_of_mem _ hmem, hnone⟩
          | ok tail =>
            simp only [ht] at h
            exact Except.noConfusion h
        · rintro ⟨period', hmem, hnone⟩
          rcases List.mem_cons.mp hmem with rfl | htail
          · rw [hrv] at hnone
            exact Option.noConfusion hnone
          · obtain ⟨err, herr⟩ := (ih s1 s2).mpr ⟨period', htail, hnone⟩
            refine ⟨err, ?_⟩
            unfold scheduleGo
            simp only [hs, herr]

/-- Chaining gives the index-wise adjacency equations. -/
theorem chained_adjacent : ∀ (sched : List ScheduleEntry) (c b : ℚ),
    ChainedFrom c b sched → ∀ k : ℕ, k + 1 < sched.length →
      (sched.getD k default).principal_ending =
        (sched.getD (k + 1) default).principal_beginning ∧
      (sched.getD k default).prepaid_balance_end =
        (sched.getD (k + 1) default).prepaid_balance_start := by
  intro sched
  induction sched with
  | nil => intro c b _ k hk; simp at hk
  | cons e rest ih =>
    intro c b hch k hk
    obtain ⟨_, _, htail⟩ := hch
    match k with
    | 0 =>
      cases rest with
      | nil => simp at hk
      | cons e' rest' =>
        obtain ⟨h1', h2', _⟩ := htail
        exact ⟨by simpa using h1'.symm, by simpa using h2'.symm⟩
    | Nat.succ k' =>
      have hk' : k' + 1 < rest.length := by simpa using hk
      have := ih e.principal_ending e.prepaid_balance_end htail k' hk'
      simpa using this

/-- C1: For every schedule the engine accepts, adjacent entries agree on the
carried balances (`principal_ending[k] = principal_beginning[k+1]` and
`prepaid_balance_end[k] = prepaid_balance_start[k+1]`), and every entry
satisfies `interest_owed = prepaid_applied + pik_amount + cash_due`. -/
theorem calculate_schedule_chain_and_identity
    (l : Loan) (sofr_rates : ℤ → Option ℚ) (pik_elections : ℕ → Option Bool)
    (payments : List Payment) (sched : List ScheduleEntry)
    (h : l.calculate_schedule sofr_rates pik_elections payments = .ok sched) :
    (∀ k : ℕ, k + 1 < sched.length →
      (sched.getD k default).principal_ending =
        (sched.getD (k + 1) default).principal_beginning ∧
      (sched.getD k default).prepaid_balance_end =
        (sched.getD (k + 1) default).prepaid_balance_start) ∧
    (∀ ent ∈ sched,
      ent.interest_owed = ent.prepaid_applied + ent.pik_amount + ent.cash_due) := by
  unfold Loan.calculate_schedule at h
  constructor
  · exact chained_adjacent sched _ _ (scheduleGo_chained _ _ _ sched h)
  · intro ent hent
    obtain ⟨cur', pre', period, s1, s2, hmem, hstep⟩ :=
      scheduleGo_mem _ _ _ sched h ent hent
    exact scheduleStep_identity hstep

/-- A `getD` at an in-range index is a member of the list. -/
theorem getD_mem_of_lt {α : Type} (l : List α) (n : ℕ) (d : α) (h : n < l.length) :
    l.getD n d ∈ l := by
  rw [List.getD_eq_getElem l d h]
  exact List.getElem_mem h

/-- Witness for C1 at the concrete two-period PIK loan `demoLoan`. -/
theorem calculate_schedule_chain_and_identity_witness :
    0 + 1 < demoSchedule.length ∧
    (demoSchedule.getD 0 default).principal_ending =
      (demoSchedule.getD 1 default).principal_beginning ∧
    (demoSchedule.getD 0 default).prepaid_balance_end =
      (demoSchedule.getD 1 default).prepaid_balance_start ∧
    (demoSchedule.getD 0 default).interest_owed =
      (demoSchedule.getD 0 default).prepaid_applied +
        (demoSchedule.getD 0 default).pik_amount +
        (demoSchedule.getD 0 default).cash_due := by
  have h : demoLoan.calculate_schedule demoRates demoElectTrue [] = .ok demoSchedule := by
    norm_num [demoSchedule, Loan.calculate_schedule, scheduleGo, scheduleStep,
      stepEntryOf, interestAccrualOf, periodPrepaymentsOf, prepaidAppliedOf,
      prepaidEndOf, pikElectedOf, pikAmountOf, principalEndingOf,
      calculate_effective_rate, calculate_period_interest,
      calculate_segmented_interest, sortByDate, insertByDate, buildSegments,
      toDetails, add_business_days, addBusinessDaysGo, seekBusinessDay,
      seekFuel, isBusinessDay, pyWeekday, demoLoan, demoPeriod1, demoPeriod2,
      demoRates, demoElectTrue, Except.toOption]
  have hlen : demoSchedule.length = 2 := by
    norm_num [demoSchedule, Loan.calculate_schedule, scheduleGo, scheduleStep,
      stepEntryOf, interestAccrualOf, periodPrepaymentsOf, prepaidAppliedOf,
      prepaidEndOf, pikElectedOf, pikAmountOf, principalEndingOf,
      calculate_effective_rate, calculate_period_interest,
      calculate_segmented_interest, sortByDate, insertByDate, buildSegments,
      toDetails, add_business_days, addBusinessDaysGo, seekBusinessDay,
      seekFuel, isBusinessDay, pyWeekday, demoLoan, demoPeriod1, demoPeriod2,
      demoRates, demoElectTrue, Except.toOption]
  have main := calculate_schedule_chain_and_identity demoLoan demoRates
    demoElectTrue [] demoSchedule h
  have hk : 0 + 1 < demoSchedule.length := by rw [hlen]; omega
  refine ⟨hk, (main.1 0 hk).1, (main.1 0 hk).2, ?_⟩
  exact main.2 _ (getD_mem_of_lt demoSchedule 0 default (by rw [hlen]; omega))

/-- C4: PIK capitalization is applied only when the supplied election is true
and the entry's prepaid balance at period start is zero; a positive prepaid
balance forces `pik_elected = false` and `pik_amount = 0` regardless of the
election; an absent election defaults to false (no PIK). -/
theorem calculate_schedule_pik_gating
    (l : Loan) (sofr_rates : ℤ → Option ℚ) (pik_elections : ℕ → Option Bool)
    (payments : List Payment) (sched : List ScheduleEntry)
    (h : l.calculate_schedule sofr_rates pik_elections payments = .ok sched) :
    ∀ ent ∈ sched,
      (ent.pik_elected = true →
        (pik_elections ent.period_number).getD false = true ∧
        ent.prepaid_balance_start = 0) ∧
      (0 < ent.prepaid_balance_start →
        ent.pik_elected = false ∧ ent.pik_amount = 0) ∧
      (pik_elections ent.period_number = none →
        ent.pik_elected = false ∧ ent.pik_amount = 0) := by
  unfold Loan.calculate_schedule at h
  set ee : ℕ → Option Bool := (if 0 < l.pik_rate then pik_elections else fun n =>
    if (l.periods.map Period.period_number).contains n then some false
    else none) with hee
  intro ent hent
  obtain ⟨cur, pre, period, s1, s2, hmem, hstep⟩ :=
    scheduleGo_mem _ _ _ sched h ent hent
  obtain ⟨sofr, hr, rfl, -, -⟩ := scheduleStep_ok hstep
  obtain ⟨hn, -, -, -, -, hpre, -, -, -, hel, -⟩ :=
    stepEntryOf_fields l sofr ee (payments.filter
      (fun p => p.payment_type == "principal_prepayment")) cur pre period
  have han : (stepEntryOf l sofr ee (payments.filter
      (fun p => p.payment_type == "principal_prepayment")) cur pre
      period).period_number = period.period_number := hn
  refine ⟨?_, ?_, ?_⟩
  · intro ht
    rw [hel] at ht
    unfold pikElectedOf at ht
    rw [Bool.and_eq_true] at ht
    obtain ⟨htel, htz⟩ := ht
    rw [decide_eq_true_iff] at htz
    refine ⟨?_, by rw [hpre]; exact htz⟩
    rw [han]
    rw [hee] at htel
    by_cases hpik : 0 < l.pik_rate
    · rwa [if_pos hpik] at htel
    · rw [if_neg hpik] at htel
      by_cases hc : (l.periods.map Period.period_number).contains period.period_number
      · rw [if_pos hc] at htel
        exact absurd htel (by simp)
      · rw [if_neg hc] at htel
        exact absurd htel (by simp)
  · intro hpos
    rw [hpre] at hpos
    have hne : ¬ (pre = 0) := by intro hz; rw [hz] at hpos; exact lt_irrefl 0 hpos
    have hfalse : pikElectedOf ee period.period_number pre = false := by
      unfold pikElectedOf
      simp [hne]
    constructor
    · rw [hel]; exact hfalse
    · exact pikAmountOf_of_false _ _ _ _ hfalse
  · intro habsent
    rw [han] at habsent
    have hgd : (ee period.period_number).getD false = false := by
      rw [hee]
      by_cases hpik : 0 < l.pik_rate
      · rw [if_pos hpik]
        rw [habsent]
        rfl
      · rw [if_neg hpik]
        by_cases hc : (l.periods.map Period.period_number).contains period.period_number
        · rw [if_pos hc]; rfl
        · rw [if_neg hc]; rfl
    have hfalse : pikElectedOf ee period.period_number pre = false := by
      unfold pikElectedOf
      rw [hgd]
      rfl
    constructor
    · rw [hel]; exact hfalse
    · exact pikAmountOf_of_false _ _ _ _ hfalse

/-- Witness for C4 at the prepaid-balance loan `demoLoanPrepaid` with PIK
elected everywhere: the first period starts with a 20,000 prepaid balance and
PIK is blocked there. -/
theorem calculate_schedule_pik_gating_witness :
    0 < (demoSchedulePrepaid.getD 0 default).prepaid_balance_start ∧
    (demoSchedulePrepaid.getD 0 default).pik_elected = false ∧
    (demoSchedulePrepaid.getD 0 default).pik_amount = 0 := by
  have h : demoLoanPrepaid.calculate_schedule demoRates demoElectTrue [] =
      .ok demoSchedulePrepaid := by
    norm_num [demoSchedulePrepaid, Loan.calculate_schedule, scheduleGo, scheduleStep,
      stepEntryOf, interestAccrualOf, periodPrepaymentsOf, prepaidAppliedOf,
      prepaidEndOf, pikElectedOf, pikAmountOf, principalEndingOf,
      calculate_effective_rate, calculate_period_interest,
      calculate_segmented_interest, sortByDate, insertByDate, buildSegments,
      toDetails, add_business_days, addBusinessDaysGo, seekBusinessDay,
      seekFuel, isBusinessDay, pyWeekday, demoLoanPrepaid, demoLoan,
      demoPeriod1, demoPeriod2, demoRates, demoElectTrue, Except.toOption]
  have hlen : demoSchedulePrepaid.length = 2 := by
    norm_num [demoSchedulePrepaid, Loan.calculate_schedule, scheduleGo, scheduleStep,
      stepEntryOf, interestAccrualOf, periodPrepaymentsOf, prepaidAppliedOf,
      prepaidEndOf, pikElectedOf, pikAmountOf, principalEndingOf,
      calculate_effective_rate, calculate_period_interest,
      calculate_segmented_interest, sortByDate, insertByDate, buildSegments,
      toDetails, add_business_days, addBusinessDaysGo, seekBusinessDay,
      seekFuel, isBusinessDay, pyWeekday, demoLoanPrepaid, demoLoan,
      demoPeriod1, demoPeriod2, demoRates, demoElectTrue, Except.toOption]
  have hpos : 0 < (demoSchedulePrepaid.getD 0 default).prepaid_balance_start := by
    norm_num [demoSchedulePrepaid, Loan.calculate_schedule, scheduleGo, scheduleStep,
      stepEntryOf, interestAccrualOf, periodPrepaymentsOf, prepaidAppliedOf,
      prepaidEndOf, pikElectedOf, pikAmountOf, principalEndingOf,
      calculate_effective_rate, calculate_period_interest,
      calculate_segmented_interest, sortByDate, insertByDate, buildSegments,
      toDetails, add_business_days, addBusinessDaysGo, seekBusinessDay,
      seekFuel, isBusinessDay, pyWeekday, demoLoanPrepaid, demoLoan,
      demoPeriod1, demoPeriod2, demoRates, demoElectTrue, Except.toOption]
  have main := calculate_schedule_pik_gating demoLoanPrepaid demoRates
    demoElectTrue [] demoSchedulePrepaid h
  have hments := main _ (getD_mem_of_lt demoSchedulePrepaid 0 default (by rw [hlen]; omega))
  exact ⟨hpos, (hments.2.1 hpos).1, (hments.2.1 hpos).2⟩

/-- C9 (amended): every emitted entry satisfies
`cash_due = interest_owed - prepaid_applied - pik_amount`, and `cash_due` is
non-negative whenever the entry's `interest_owed` is non-negative (which the
claim's configuration constraints do not by themselves guarantee: a negative
margin, or prepayments exceeding the principal, can make `interest_owed`
negative, and then `cash_due` is that negative interest). -/
theorem calculate_schedule_cash_due
    (l : Loan) (sofr_rates : ℤ → Option ℚ) (pik_elections : ℕ → Option Bool)
    (payments : List Payment) (sched : List ScheduleEntry)
    (h : l.calculate_schedule sofr_rates pik_elections payments = .ok sched) :
    ∀ ent ∈ sched,
      ent.cash_due = ent.interest_owed - ent.prepaid_applied - ent.pik_amount ∧
      (0 ≤ ent.interest_owed → 0 ≤ ent.cash_due) := by
  unfold Loan.calculate_schedule at h
  set ee : ℕ → Option Bool := (if 0 < l.pik_rate then pik_elections else fun n =>
    if (l.periods.map Period.period_number).contains n then some false
    else none) with hee
  intro ent hent
  obtain ⟨cur, pre, period, s1, s2, hmem, hstep⟩ :=
    scheduleGo_mem _ _ _ sched h ent hent
  obtain ⟨sofr, hr, rfl, -, -⟩ := scheduleStep_ok hstep
  obtain ⟨-, -, -, -, -, -, hio, hpa, -, -, hpk, hcash, -⟩ :=
    stepEntryOf_fields l sofr ee (payments.filter
      (fun p => p.payment_type == "principal_prepayment")) cur pre period
  refine ⟨hcash, ?_⟩
  intro h0
  rw [hcash, hpa, hpk, hio]
  rw [hio] at h0
  exact cash_nonneg_core ee period.period_number _ pre _ l.pik_rate period.days h0

/-- C3 (amended): whenever PIK is in effect for an entry, the engine computes
the PIK amount from the principal after prepayment (not from the interest
owed): `pik_amount = principal_after_prepayment * pik_rate * days / 360`,
capped at `interest_owed`; and
`principal_ending = principal_after_prepayment + pik_amount`, where
`principal_after_prepayment = principal_beginning` less the entry's in-period
prepayment amounts. -/
theorem calculate_schedule_pik_formula
    (l : Loan) (sofr_rates : ℤ → Option ℚ) (pik_elections : ℕ → Option Bool)
    (payments : List Payment) (sched : List ScheduleEntry)
    (h : l.calculate_schedule sofr_rates pik_elections payments = .ok sched) :
    ∀ ent ∈ sched, ent.pik_elected = true →
      ent.pik_amount =
        (if ent.interest_owed < calculate_period_interest
            (ent.principal_beginning - (ent.prepayments.map Payment.amount).sum)
            l.pik_rate ent.days
         then ent.interest_owed
         else calculate_period_interest
            (ent.principal_beginning - (ent.prepayments.map Payment.amount).sum)
            l.pik_rate ent.days) ∧
      ent.principal_ending =
        (ent.principal_beginning - (ent.prepayments.map Payment.amount).sum) +
          ent.pik_amount := by
  unfold Loan.calculate_schedule at h
  set ee : ℕ → Option Bool := (if 0 < l.pik_rate then pik_elections else fun n =>
    if (l.periods.map Period.period_number).contains n then some false
    else none) with hee
  intro ent hent ht
  obtain ⟨cur, pre, period, s1, s2, hmem, hstep⟩ :=
    scheduleGo_mem _ _ _ sched h ent hent
  obtain ⟨sofr, hr, rfl, -, -⟩ := scheduleStep_ok hstep
  obtain ⟨-, -, -, hd, hpb, -, hio, -, -, hel, hpk, -, hpe, -, hpp⟩ :=
    stepEntryOf_fields l sofr ee (payments.filter
      (fun p => p.payment_type == "principal_prepayment")) cur pre period
  rw [hel] at ht
  have hpap := interestAccrualOf_pap cur
    (calculate_effective_rate sofr l.margin l.sofr_floor l.sofr_ceiling)
    (payments.filter (fun p => p.payment_type == "principal_prepayment")) period
  constructor
  · rw [hpk, ht, hpb, hpp, hd, hpap]
    unfold pikAmountOf
    rw [if_pos rfl]
  · rw [hpe, ht, hpb, hpp, hpap]
    unfold principalEndingOf
    rw [if_pos rfl]

/-- C6 (amended): an entry whose period holds no prepayment events carries an
empty `segments` list (not a single whole-period segment); with k >= 1 events
the `segments` list has k + 1 elements and its inclusive day counts sum to the
period's `days` field (assuming each generated period stores
`days = end_date - start_date + 1`, as the period generator does). -/
theorem calculate_schedule_segments
    (l : Loan) (sofr_rates : ℤ → Option ℚ) (pik_elections : ℕ → Option Bool)
    (payments : List Payment) (sched : List ScheduleEntry)
    (hdays : ∀ p ∈ l.periods, p.days = p.end_date - p.start_date + 1)
    (h : l.calculate_schedule sofr_rates pik_elections payments = .ok sched) :
    ∀ ent ∈ sched,
      (ent.prepayments = [] → ent.segments = []) ∧
      (ent.prepayments ≠ [] →
        ent.segments.length = ent.prepayments.length + 1 ∧
        (ent.segments.map SegmentDetail.days).sum = ent.days) := by
  unfold Loan.calculate_schedule at h
  set ee : ℕ → Option Bool := (if 0 < l.pik_rate then pik_elections else fun n =>
    if (l.periods.map Period.period_number).contains n then some false
    else none) with hee
  intro ent hent
  obtain ⟨cur, pre, period, s1, s2, hmem, hstep⟩ :=
    scheduleGo_mem _ _ _ sched h ent hent
  obtain ⟨sofr, hr, rfl, -, -⟩ := scheduleStep_ok hstep
  obtain ⟨-, -, -, hd, -, -, -, -, -, -, -, -, -, hsg, hpp⟩ :=
    stepEntryOf_fields l sofr ee (payments.filter
      (fun p => p.payment_type == "principal_prepayment")) cur pre period
  have hseg := interestAccrualOf_segments cur
    (calculate_effective_rate sofr l.margin l.sofr_floor l.sofr_ceiling)
    (payments.filter (fun p => p.payment_type == "principal_prepayment")) period
  constructor
  · intro hempty
    rw [hpp] at hempty
    rw [hsg]
    exact hseg.1 (by rw [List.isEmpty_iff]; exact hempty)
  · intro hne
    rw [hpp] at hne
    have hfalse : (periodPrepaymentsOf (payments.filter
        (fun p => p.payment_type == "principal_prepayment")) period).isEmpty = false := by
      cases hcase : (periodPrepaymentsOf (payments.filter
          (fun p => p.payment_type == "principal_prepayment")) period).isEmpty with
      | true => exact absurd (List.isEmpty_iff.mp hcase) hne
      | false => rfl
    obtain ⟨hlen, hsum⟩ := hseg.2 hfalse
    refine ⟨by rw [hsg, hpp]; exact hlen, ?_⟩
    rw [hsg, hsum, hd, hdays period hmem]

/-- C7: schedule calculation fails if and only if some period's reset date
(2 business days before the period start) has no rate in the supplied table —
equivalently, iff some date of `get_required_sofr_dates` is missing from the
table. Failure is an `Except.error` carrying no schedule, so no partial
schedule is ever returned. -/
theorem calculate_schedule_missing_rate_iff
    (l : Loan) (sofr_rates : ℤ → Option ℚ) (pik_elections : ℕ → Option Bool)
    (payments : List Payment) :
    (∃ err, l.calculate_schedule sofr_rates pik_elections payments = .error err) ↔
    ∃ d ∈ l.get_required_sofr_dates, sofr_rates d = none := by
  unfold Loan.calculate_schedule
  set ee : ℕ → Option Bool := (if 0 < l.pik_rate then pik_elections else fun n =>
    if (l.periods.map Period.period_number).contains n then some false
    else none) with hee
  have hgo := @scheduleGo_error_iff l sofr_rates ee
    (payments.filter (fun p => p.payment_type == "principal_prepayment"))
    l.periods l.principal l.interest_prepayment
  constructor
  · rintro ⟨err, herr⟩
    obtain ⟨period, hmem, hnone⟩ := hgo.mp ⟨err, herr⟩
    refine ⟨add_business_days period.start_date (-2) l.holidays, ?_, hnone⟩
    unfold Loan.get_required_sofr_dates
    exact List.mem_map_of_mem _ hmem
  · rintro ⟨d, hd, hnone⟩
    unfold Loan.get_required_sofr_dates at hd
    obtain ⟨period, hmem, rfl⟩ := List.mem_map.mp hd
    exact hgo.mpr ⟨period, hmem, hnone⟩

/-- C5: `calculate_segmented_interest`, after filtering prepayments to the
period and sorting them by date, returns one segment more than there are
in-period events; the returned ending principal deducts every in-period event
amount; the returned total is the sum of the segment interests; and segment i
(0-based) runs from the day after event i-1 (or the period start for i = 0) to
event i's date (or the period end for the last segment), is priced at the
running principal before the event closing it, over the inclusive day span,
at `principal * rate * days / 360`. With zero in-period events this yields the
single whole-period segment at the starting principal. -/
theorem calculate_segmented_interest_spec
    (period_start period_end : ℤ) (starting_principal effective_rate : ℚ)
    (prepayments : List Payment) :
    let evs := sortByDate (prepayments.filter (fun p =>
      decide (period_start ≤ p.payment_date) && decide (p.payment_date ≤ period_end)))
    let r := calculate_segmented_interest period_start period_end
      starting_principal effective_rate prepayments
    r.2.2.length = evs.length + 1 ∧
    r.2.1 = starting_principal - (evs.map Payment.amount).sum ∧
    r.1 = (r.2.2.map SegmentDetail.interest).sum ∧
    ∀ i : ℕ, i < evs.length + 1 →
      (r.2.2.getD i default).segment_num = i + 1 ∧
      (r.2.2.getD i default).start_date =
        (if i = 0 then period_start
         else (evs.getD (i - 1) default).payment_date + 1) ∧
      (r.2.2.getD i default).end_date =
        (if i = evs.length then period_end
         else (evs.getD i default).payment_date) ∧
      (r.2.2.getD i default).principal =
        starting_principal - ((evs.take i).map Payment.amount).sum ∧
      (r.2.2.getD i default).days =
        (r.2.2.getD i default).end_date - (r.2.2.getD i default).start_date + 1 ∧
      (r.2.2.getD i default).interest =
        calculate_period_interest (r.2.2.getD i default).principal effective_rate
          (r.2.2.getD i default).days := by
  intro evs r
  obtain ⟨hlen, hend, hidx⟩ :=
    buildSegments_facts period_end evs period_start starting_principal
  have hr2 : r.2.2 = toDetails effective_rate 1
      (buildSegments period_end period_start starting_principal evs).1 := rfl
  have hr21 : r.2.1 =
      (buildSegments period_end period_start starting_principal evs).2 := rfl
  have hr1 : r.1 = ((toDetails effective_rate 1
      (buildSegments period_end period_start starting_principal evs).1).map
        SegmentDetail.interest).sum := rfl
  refine ⟨?_, ?_, ?_, ?_⟩
  · rw [hr2, toDetails_length, hlen]
  · rw [hr21, hend]
  · rw [hr1, hr2]
  · intro i hi
    have hseglen : i <
        (buildSegments period_end period_start starting_principal evs).1.length := by
      rw [hlen]; exact hi
    have hget := toDetails_getD effective_rate
      (buildSegments period_end period_start starting_principal evs).1 1 i hseglen
    obtain ⟨hstart, hend', hprin⟩ := hidx i hi
    rw [hr2, hget]
    refine ⟨Nat.add_comm 1 i, hstart, hend', hprin, rfl, rfl⟩

/-- Counterexample for C9 as stated: `demoLoanNegMargin` satisfies every
paragraph-3 constraint the claim lists (positive principal, non-negative PIK
rate and prepaid balance, floor <= ceiling), yet its negative margin makes the
first entry's `cash_due` negative. -/
theorem calculate_schedule_cash_due_counterexample :
    0 < demoLoanNegMargin.principal ∧ 0 ≤ demoLoanNegMargin.pik_rate ∧
    0 ≤ demoLoanNegMargin.interest_prepayment ∧
    demoLoanNegMargin.sofr_floor ≤ demoLoanNegMargin.sofr_ceiling ∧
    demoLoanNegMargin.calculate_schedule demoRates demoElectNone [] =
      .ok demoScheduleNegMargin ∧
    (demoScheduleNegMargin.getD 0 default).cash_due < 0 := by
  norm_num [demoSchedule, demoSchedulePrepaid, demoScheduleNegMargin,
      demoScheduleSegmented, Loan.calculate_schedule, scheduleGo, scheduleStep,
      stepEntryOf, interestAccrualOf, periodPrepaymentsOf, prepaidAppliedOf,
      prepaidEndOf, pikElectedOf, pikAmountOf, principalEndingOf,
      calculate_effective_rate, calculate_period_interest,
      calculate_segmented_interest, sortByDate, insertByDate, buildSegments,
      toDetails, add_business_days, addBusinessDaysGo, seekBusinessDay,
      seekFuel, isBusinessDay, pyWeekday, demoLoan, demoLoanPrepaid,
      demoLoanNegMargin, demoPeriod1, demoPeriod2, demoRates, demoElectTrue,
      demoElectNone, demoPrepayment, Except.toOption]

/-- Witness for C9 (amended) at `demoLoan`'s first entry. -/
theorem calculate_schedule_cash_due_witness :
    (demoSchedule.getD 0 default).cash_due =
      (demoSchedule.getD 0 default).interest_owed -
        (demoSchedule.getD 0 default).prepaid_applied -
        (demoSchedule.getD 0 default).pik_amount ∧
    0 ≤ (demoSchedule.getD 0 default).interest_owed ∧
    0 ≤ (demoSchedule.getD 0 default).cash_due := by
  have h : demoLoan.calculate_schedule demoRates demoElectTrue [] =
      .ok demoSchedule := by
    norm_num [demoSchedule, demoSchedulePrepaid, demoScheduleNegMargin,
      demoScheduleSegmented, Loan.calculate_schedule, scheduleGo, scheduleStep,
      stepEntryOf, interestAccrualOf, periodPrepaymentsOf, prepaidAppliedOf,
      prepaidEndOf, pikElectedOf, pikAmountOf, principalEndingOf,
      calculate_effective_rate, calculate_period_interest,
      calculate_segmented_interest, sortByDate, insertByDate, buildSegments,
      toDetails, add_business_days, addBusinessDaysGo, seekBusinessDay,
      seekFuel, isBusinessDay, pyWeekday, demoLoan, demoLoanPrepaid,
      demoLoanNegMargin, demoPeriod1, demoPeriod2, demoRates, demoElectTrue,
      demoElectNone, demoPrepayment, Except.toOption]
  have hlen : demoSchedule.length = 2 := by
    norm_num [demoSchedule, demoSchedulePrepaid, demoScheduleNegMargin,
      demoScheduleSegmented, Loan.calculate_schedule, scheduleGo, scheduleStep,
      stepEntryOf, interestAccrualOf, periodPrepaymentsOf, prepaidAppliedOf,
      prepaidEndOf, pikElectedOf, pikAmountOf, principalEndingOf,
      calculate_effective_rate, calculate_period_interest,
      calculate_segmented_interest, sortByDate, insertByDate, buildSegments,
      toDetails, add_business_days, addBusinessDaysGo, seekBusinessDay,
      seekFuel, isBusinessDay, pyWeekday, demoLoan, demoLoanPrepaid,
      demoLoanNegMargin, demoPeriod1, demoPeriod2, demoRates, demoElectTrue,
      demoElectNone, demoPrepayment, Except.toOption]
  have hio : 0 ≤ (demoSchedule.getD 0 default).interest_owed := by
    norm_num [demoSchedule, demoSchedulePrepaid, demoScheduleNegMargin,
      demoScheduleSegmented, Loan.calculate_schedule, scheduleGo, scheduleStep,
      stepEntryOf, interestAccrualOf, periodPrepaymentsOf, prepaidAppliedOf,
      prepaidEndOf, pikElectedOf, pikAmountOf, principalEndingOf,
      calculate_effective_rate, calculate_period_interest,
      calculate_segmented_interest, sortByDate, insertByDate, buildSegments,
      toDetails, add_business_days, addBusinessDaysGo, seekBusinessDay,
      seekFuel, isBusinessDay, pyWeekday, demoLoan, demoLoanPrepaid,
      demoLoanNegMargin, demoPeriod1, demoPeriod2, demoRates, demoElectTrue,
      demoElectNone, demoPrepayment, Except.toOption]
  have hm := calculate_schedule_cash_due demoLoan demoRates demoElectTrue []
    demoSchedule h _ (getD_mem_of_lt demoSchedule 0 default (by rw [hlen]; omega))
  exact ⟨hm.1, hio, hm.2 hio⟩

/-- Counterexample for C3 as stated: in `demoSchedule`'s first (PIK) entry the
engine's `pik_amount` is not `interest_owed * pik_rate * days / 360` — it is
computed from the principal, not the interest owed. -/
theorem calculate_schedule_pik_formula_counterexample :
    demoLoan.calculate_schedule demoRates demoElectTrue [] = .ok demoSchedule ∧
    (demoSchedule.getD 0 default).pik_elected = true ∧
    (demoSchedule.getD 0 default).pik_amount ≠
      (demoSchedule.getD 0 default).interest_owed * demoLoan.pik_rate *
        (((demoSchedule.getD 0 default).days : ℚ) / 360) := by
  norm_num [demoSchedule, demoSchedulePrepaid, demoScheduleNegMargin,
      demoScheduleSegmented, Loan.calculate_schedule, scheduleGo, scheduleStep,
      stepEntryOf, interestAccrualOf, periodPrepaymentsOf, prepaidAppliedOf,
      prepaidEndOf, pikElectedOf, pikAmountOf, principalEndingOf,
      calculate_effective_rate, calculate_period_interest,
      calculate_segmented_interest, sortByDate, insertByDate, buildSegments,
      toDetails, add_business_days, addBusinessDaysGo, seekBusinessDay,
      seekFuel, isBusinessDay, pyWeekday, demoLoan, demoLoanPrepaid,
      demoLoanNegMargin, demoPeriod1, demoPeriod2, demoRates, demoElectTrue,
      demoElectNone, demoPrepayment, Except.toOption]

/-- Witness for C3 (amended) at `demoSchedule`'s first entry. -/
theorem calculate_schedule_pik_formula_witness :
    (demoSchedule.getD 0 default).pik_elected = true ∧
    (demoSchedule.getD 0 default).pik_amount =
      (if (demoSchedule.getD 0 default).interest_owed < calculate_period_interest
          ((demoSchedule.getD 0 default).principal_beginning -
            (((demoSchedule.getD 0 default).prepayments).map Payment.amount).sum)
          demoLoan.pik_rate (demoSchedule.getD 0 default).days
       then (demoSchedule.getD 0 default).interest_owed
       else calculate_period_interest
          ((demoSchedule.getD 0 default).principal_beginning -
            (((demoSchedule.getD 0 default).prepayments).map Payment.amount).sum)
          demoLoan.pik_rate (demoSchedule.getD 0 default).days) ∧
    (demoSchedule.getD 0 default).principal_ending =
      ((demoSchedule.getD 0 default).principal_beginning -
        (((demoSchedule.getD 0 default).prepayments).map Payment.amount).sum) +
      (demoSchedule.getD 0 default).pik_amount := by
  have h : demoLoan.calculate_schedule demoRates demoElectTrue [] =
      .ok demoSchedule := by
    norm_num [demoSchedule, demoSchedulePrepaid, demoScheduleNegMargin,
      demoScheduleSegmented, Loan.calculate_schedule, scheduleGo, scheduleStep,
      stepEntryOf, interestAccrualOf, periodPrepaymentsOf, prepaidAppliedOf,
      prepaidEndOf, pikElectedOf, pikAmountOf, principalEndingOf,
      calculate_effective_rate, calculate_period_interest,
      calculate_segmented_interest, sortByDate, insertByDate, buildSegments,
      toDetails, add_business_days, addBusinessDaysGo, seekBusinessDay,
      seekFuel, isBusinessDay, pyWeekday, demoLoan, demoLoanPrepaid,
      demoLoanNegMargin, demoPeriod1, demoPeriod2, demoRates, demoElectTrue,
      demoElectNone, demoPrepayment, Except.toOption]
  have hlen : demoSchedule.length = 2 := by
    norm_num [demoSchedule, demoSchedulePrepaid, demoScheduleNegMargin,
      demoScheduleSegmented, Loan.calculate_schedule, scheduleGo, scheduleStep,
      stepEntryOf, interestAccrualOf, periodPrepaymentsOf, prepaidAppliedOf,
      prepaidEndOf, pikElectedOf, pikAmountOf, principalEndingOf,
      calculate_effective_rate, calculate_period_interest,
      calculate_segmented_interest, sortByDate, insertByDate, buildSegments,
      toDetails, add_business_days, addBusinessDaysGo, seekBusinessDay,
      seekFuel, isBusinessDay, pyWeekday, demoLoan, demoLoanPrepaid,
      demoLoanNegMargin, demoPeriod1, demoPeriod2, demoRates, demoElectTrue,
      demoElectNone, demoPrepayment, Except.toOption]
  have helected : (demoSchedule.getD 0 default).pik_elected = true := by
    norm_num [demoSchedule, demoSchedulePrepaid, demoScheduleNegMargin,
      demoScheduleSegmented, Loan.calculate_schedule, scheduleGo, scheduleStep,
      stepEntryOf, interestAccrualOf, periodPrepaymentsOf, prepaidAppliedOf,
      prepaidEndOf, pikElectedOf, pikAmountOf, principalEndingOf,
      calculate_effective_rate, calculate_period_interest,
      calculate_segmented_interest, sortByDate, insertByDate, buildSegments,
      toDetails, add_business_days, addBusinessDaysGo, seekBusinessDay,
      seekFuel, isBusinessDay, pyWeekday, demoLoan, demoLoanPrepaid,
      demoLoanNegMargin, demoPeriod1, demoPeriod2, demoRates, demoElectTrue,
      demoElectNone, demoPrepayment, Except.toOption]
  have hm := calculate_schedule_pik_formula demoLoan demoRates demoElectTrue []
    demoSchedule h _ (getD_mem_of_lt demoSchedule 0 default (by rw [hlen]; omega))
    helected
  exact ⟨helected, hm.1, hm.2⟩

/-- Counterexample for C6 as stated: the first entry of `demoSchedule` has
zero in-period prepayments and an empty `segments` list, so
`len(segments) = 0`, not `k + 1 = 1`. -/
theorem calculate_schedule_segments_counterexample :
    demoLoan.calculate_schedule demoRates demoElectTrue [] = .ok demoSchedule ∧
    (demoSchedule.getD 0 default).prepayments.length = 0 ∧
    (demoSchedule.getD 0 default).segments.length ≠
      (demoSchedule.getD 0 default).prepayments.length + 1 := by
  norm_num [demoSchedule, demoSchedulePrepaid, demoScheduleNegMargin,
      demoScheduleSegmented, Loan.calculate_schedule, scheduleGo, scheduleStep,
      stepEntryOf, interestAccrualOf, periodPrepaymentsOf, prepaidAppliedOf,
      prepaidEndOf, pikElectedOf, pikAmountOf, principalEndingOf,
      calculate_effective_rate, calculate_period_interest,
      calculate_segmented_interest, sortByDate, insertByDate, buildSegments,
      toDetails, add_business_days, addBusinessDaysGo, seekBusinessDay,
      seekFuel, isBusinessDay, pyWeekday, demoLoan, demoLoanPrepaid,
      demoLoanNegMargin, demoPeriod1, demoPeriod2, demoRates, demoElectTrue,
      demoElectNone, demoPrepayment, Except.toOption]

/-- Witness for C6 (amended) at `demoScheduleSegmented`'s first entry, whose
period holds one prepayment event. -/
theorem calculate_schedule_segments_witness :
    (demoScheduleSegmented.getD 0 default).prepayments.length = 1 ∧
    (demoScheduleSegmented.getD 0 default).segments.length = 2 ∧
    ((demoScheduleSegmented.getD 0 default).segments.map SegmentDetail.days).sum =
      (demoScheduleSegmented.getD 0 default).days := by
  have h : demoLoan.calculate_schedule demoRates demoElectNone [demoPrepayment] =
      .ok demoScheduleSegmented := by
    norm_num [demoSchedule, demoSchedulePrepaid, demoScheduleNegMargin,
      demoScheduleSegmented, Loan.calculate_schedule, scheduleGo, scheduleStep,
      stepEntryOf, interestAccrualOf, periodPrepaymentsOf, prepaidAppliedOf,
      prepaidEndOf, pikElectedOf, pikAmountOf, principalEndingOf,
      calculate_effective_rate, calculate_period_interest,
      calculate_segmented_interest, sortByDate, insertByDate, buildSegments,
      toDetails, add_business_days, addBusinessDaysGo, seekBusinessDay,
      seekFuel, isBusinessDay, pyWeekday, demoLoan, demoLoanPrepaid,
      demoLoanNegMargin, demoPeriod1, demoPeriod2, demoRates, demoElectTrue,
      demoElectNone, demoPrepayment, Except.toOption]
  have hlen : demoScheduleSegmented.length = 2 := by
    norm_num [demoSchedule, demoSchedulePrepaid, demoScheduleNegMargin,
      demoScheduleSegmented, Loan.calculate_schedule, scheduleGo, scheduleStep,
      stepEntryOf, interestAccrualOf, periodPrepaymentsOf, prepaidAppliedOf,
      prepaidEndOf, pikElectedOf, pikAmountOf, principalEndingOf,
      calculate_effective_rate, calculate_period_interest,
      calculate_segmented_interest, sortByDate, insertByDate, buildSegments,
      toDetails, add_business_days, addBusinessDaysGo, seekBusinessDay,
      seekFuel, isBusinessDay, pyWeekday, demoLoan, demoLoanPrepaid,
      demoLoanNegMargin, demoPeriod1, demoPeriod2, demoRates, demoElectTrue,
      demoElectNone, demoPrepayment, Except.toOption]
  have hdays : ∀ p ∈ demoLoan.periods, p.days = p.end_date - p.start_date + 1 := by
    decide
  have hppl : (demoScheduleSegmented.getD 0 default).prepayments.length = 1 := by
    norm_num [demoSchedule, demoSchedulePrepaid, demoScheduleNegMargin,
      demoScheduleSegmented, Loan.calculate_schedule, scheduleGo, scheduleStep,
      stepEntryOf, interestAccrualOf, periodPrepaymentsOf, prepaidAppliedOf,
      prepaidEndOf, pikElectedOf, pikAmountOf, principalEndingOf,
      calculate_effective_rate, calculate_period_interest,
      calculate_segmented_interest, sortByDate, insertByDate, buildSegments,
      toDetails, add_business_days, addBusinessDaysGo, seekBusinessDay,
      seekFuel, isBusinessDay, pyWeekday, demoLoan, demoLoanPrepaid,
      demoLoanNegMargin, demoPeriod1, demoPeriod2, demoRates, demoElectTrue,
      demoElectNone, demoPrepayment, Except.toOption]
  have hne : (demoScheduleSegmented.getD 0 default).prepayments ≠ [] := by
    intro hcontra
    rw [hcontra] at hppl
    exact absurd hppl (by simp)
  have hm := calculate_schedule_segments demoLoan demoRates demoElectNone
    [demoPrepayment] demoScheduleSegmented hdays h _
    (getD_mem_of_lt demoScheduleSegmented 0 default (by rw [hlen]; omega))
  refine ⟨hppl, ?_, (hm.2 hne).2⟩
  rw [(hm.2 hne).1, hppl]

/-- Witness for C5 at the concrete one-prepayment period: two segments, the
second priced at the reduced principal, and an ending principal of 900,000. -/
theorem calculate_segmented_interest_spec_witness :
    ((calculate_segmented_interest 11 40 1000000 (19/200) [demoPrepayment]).2.2).length = 2 ∧
    (calculate_segmented_interest 11 40 1000000 (19/200) [demoPrepayment]).2.1 = 900000 ∧
    ((calculate_segmented_interest 11 40 1000000 (19/200)
      [demoPrepayment]).2.2.getD 1 default).principal = 900000 ∧
    ((calculate_segmented_interest 11 40 1000000 (19/200)
      [demoPrepayment]).2.2.getD 1 default).start_date = 26 ∧
    ((calculate_segmented_interest 11 40 1000000 (19/200)
      [demoPrepayment]).2.2.getD 1 default).end_date = 40 := by
  obtain ⟨h1, h2, h3, h4⟩ :=
    calculate_segmented_interest_spec 11 40 1000000 (19/200) [demoPrepayment]
  have hevs : (sortByDate ([demoPrepayment].filter (fun p =>
      decide ((11:ℤ) ≤ p.payment_date) && decide (p.payment_date ≤ (40:ℤ))))) =
      [demoPrepayment] := by
    norm_num [sortByDate, insertByDate, demoPrepayment]
  have hi : (1:ℕ) < (sortByDate ([demoPrepayment].filter (fun p =>
      decide ((11:ℤ) ≤ p.payment_date) && decide (p.payment_date ≤ (40:ℤ))))).length + 1 := by
    rw [hevs]
    simp
  have h5 := h4 1 hi
  refine ⟨?_, ?_, ?_, ?_, ?_⟩
  · rw [h1, hevs]
    rfl
  · rw [h2, hevs]
    norm_num [demoPrepayment]
  · rw [h5.2.2.2.1, hevs]
    norm_num [demoPrepayment]
  · rw [h5.2.1, hevs]
    norm_num [demoPrepayment]
  · rw [h5.2.2.1, hevs]
    norm_num [demoPrepayment, hevs]

/-- C2 (failing input): under the `last_business_day` convention with
origination 2025-07-15, maturity 2025-09-15 and an empty holiday list, the
generator emits August's period ending at Friday 2025-08-29 (the month's last
business day) but starts September's period at 2025-09-01, so the period list
is not contiguous (2025-08-30 and 2025-08-31 belong to no period) and the
days fields sum to 61, not the loan's inclusive span of 63. -/
theorem generate_interest_periods_weekend_gap :
    generate_interest_periods (dateFromYmd 2025 7 15) (dateFromYmd 2025 9 15) []
      "last_business_day" =
      some [⟨1, dateFromYmd 2025 7 15, dateFromYmd 2025 7 31, dateFromYmd 2025 7 31, 17⟩,
            ⟨2, dateFromYmd 2025 8 1, dateFromYmd 2025 8 29, dateFromYmd 2025 8 29, 29⟩,
            ⟨3, dateFromYmd 2025 9 1, dateFromYmd 2025 9 15, dateFromYmd 2025 9 15, 15⟩] ∧
    dateFromYmd 2025 9 1 ≠ dateFromYmd 2025 8 29 + 1 ∧
    (17 + 29 + 15 : ℤ) ≠ (dateFromYmd 2025 9 15 - dateFromYmd 2025 7 15) + 1 := by
  refine ⟨by decide, by decide, by decide⟩

/-- Counterexample for C8 as stated: Loan construction performs no fail-fast
validation — a negative-principal configuration, a floor-above-ceiling
configuration, and a configuration with origination after maturity are all
constructed successfully, and the negative-principal loan still gets its
period list generated (2 periods). -/
theorem loanInit_no_validation_counterexample :
    (loanInit "L1" "B" (-100) 0 (dateFromYmd 2025 1 15) (dateFromYmd 2025 2 28)
      0 1 "calendar_month_end" 0 0).isSome = true ∧
    ((loanInit "L1" "B" (-100) 0 (dateFromYmd 2025 1 15) (dateFromYmd 2025 2 28)
      0 1 "calendar_month_end" 0 0).map (fun l => l.periods.length)) = some 2 ∧
    (loanInit "L2" "B" 100 0 (dateFromYmd 2025 1 15) (dateFromYmd 2025 2 28)
      1 0 "calendar_month_end" 0 0).isSome = true ∧
    (loanInit "L3" "B" 100 0 (dateFromYmd 2025 3 10) (dateFromYmd 2025 1 10)
      0 1 "calendar_month_end" 0 0).isSome = true := by
  refine ⟨by decide, by decide, by decide, by decide⟩

/-- C8 (amended): `Loan.__init__` validates nothing — whether construction
succeeds is independent of the principal, margin, floor, ceiling, PIK rate and
prepaid-interest values (it depends only on the dates and the period-end
convention), and period generation always proceeds regardless of the
constraint violations the claim lists. -/
theorem loanInit_no_validation
    (loan_id borrower : String) (p1 p2 m1 m2 : ℚ) (o mt : ℤ)
    (f1 f2 c1 c2 : ℚ) (conv : String) (pk1 pk2 ip1 ip2 : ℚ) :
    (loanInit loan_id borrower p1 m1 o mt f1 c1 conv pk1 ip1).isSome =
      (loanInit loan_id borrower p2 m2 o mt f2 c2 conv pk2 ip2).isSome := by
  unfold loanInit
  cases h : generate_interest_periods o mt (get_relevant_holidays o mt) conv <;>
    simp [h]
